import Mathlib

/-!
DNS client of CabAppPkg (DNSClientImpl.c): embedding and verified properties.

The C functions of `src/CabAppPkg/DNSClient/DNSClientImpl.c` are embedded as Lean
functions on byte lists.

Conventions of the embedding.

* A byte is a `Nat` below 256. A C buffer is a `List Nat`; a pointer into a buffer is the
  buffer together with an offset.
* `Option` results: `none` stands for an execution without a defined result: one the C
  standard leaves undefined (a read or write outside the pool that was allocated), or a loop
  that never ends. `some r` is the result of a defined execution.
* The target is X64 (`MdePkg/Include/X64/ProcessorBind.h`): `UINTN` has 64 bits, a pointer has
  8 bytes, `CHAR8` is `char` and is signed, memory is little endian. A `CHAR8` from 0x80 on
  is negative. Where it is the length of a copy (`CopyMem` in `CreateDNSPacket`, the copy loop
  of `LabelFormatToHostname`) the copy has 2^64 - 128 bytes or more and runs outside every
  pool; such an execution is `none`. Where it is added to a `UINTN` (the counting loop of
  `LabelFormatToHostname`) the `UINTN` wraps: the values of that loop are kept as integers,
  and a negative integer `x` stands for the `UINTN` 2^64 + `x`. No buffer has 2^63 bytes, so
  these integers stay far inside -2^63 .. 2^63. Where every length octet is below 0x80 the
  results do not depend on the signedness of `char`.
* Pool allocations (`AllocateZeroPool`) succeed, with one exception: the pool of
  `Length + NumLables` bytes in `LabelFormatToHostname` when that `UINTN` has wrapped (it is
  2^63 or more). That allocation fails, `LabelFormatToHostname` returns NULL, and
  `ReceiveDNSPacket` returns `EFI_OUT_OF_RESOURCES`. The other `EFI_OUT_OF_RESOURCES` exits
  are not taken.
* `DNS_QUESTION Questions[0]` in `GetHostByName` is used by the code as an array with one
  element and is embedded as such. `ZeroMem(IpAddress, sizeof(IpAddress))` clears the size of
  a pointer; the four bytes of the address are embedded.
* The UDP4 firmware is a parameter: the status it gives to the send, and the datagram or the
  error status it gives to the receive.
-/

namespace DNSClient

/-! ## Bytes and memory -/

/-- The byte of the character `.` (0x2E), the label delimiter of a dotted hostname. -/
def DOT : Nat := 46

/-- Read of `*(UINT8*)(mem + off)`; `none` outside the buffer. -/
def readUINT8 (mem : List Nat) (off : Nat) : Option Nat := mem[off]?

/-- Read of `*(UINT16*)(mem + off)` on a little-endian machine. -/
def readUINT16 (mem : List Nat) (off : Nat) : Option Nat :=
  match mem[off]?, mem[off + 1]? with
  | some b0, some b1 => some (b0 + 256 * b1)
  | _, _ => none

/-- Read of `*(UINT32*)(mem + off)` on a little-endian machine. -/
def readUINT32 (mem : List Nat) (off : Nat) : Option Nat :=
  match mem[off]?, mem[off + 1]?, mem[off + 2]?, mem[off + 3]? with
  | some b0, some b1, some b2, some b3 => some (b0 + 256 * b1 + 65536 * b2 + 16777216 * b3)
  | _, _, _, _ => none

/-- The macro `HTONS` of EDK2 `NetLib.h`, which is `SwapBytes16`: the argument is converted to
`UINT16` and its two bytes are exchanged. -/
def HTONS (x : Nat) : Nat := (x % 256) * 256 + (x / 256) % 256

/-- The value of a `CHAR8` (signed `char`) converted to `UINTN`, where that value is the length
of a copy: the `CopyMem` of the name in `CreateDNSPacket`, and the copy loop of
`LabelFormatToHostname`, which runs only after its pool was allocated. For a byte below 0x80
it is the byte. A byte from 0x80 on is a negative `CHAR8` and gives a length of 2^64 - 128 or
more, with which the copy runs outside every pool: `none`. -/
def CHAR8toUINTN (b : Nat) : Option Nat := if b < 128 then some b else none

/-- The value of a `CHAR8` (signed `char`) converted to `UINTN`, as an integer: a byte from
0x80 on is sign-extended, and the negative integer `b - 256` stands for the `UINTN`
2^64 + `b` - 256, so that adding it to a `UINTN` is the addition of integers. -/
def CHAR8toINTN (b : Nat) : Int := if b < 128 then (b : Int) else (b : Int) - 256

/-- Read of the byte at `mem + off` for an integer offset: an offset below zero (a `UINTN`
that wrapped) is in front of the pool, outside of it like an offset behind its end. -/
def readUINT8At (mem : List Nat) (off : Int) : Option Nat :=
  if 0 ≤ off then readUINT8 mem off.toNat else none

/-- The C string a `CHAR8*` buffer holds: the bytes before the first NUL. -/
def cstr (buf : List Nat) : List Nat := buf.takeWhile (fun b => b != 0)

/-! ## Name codec -/

/-- The `for` loop of `HostnameToLabelFormat`. The first argument is the loop variable `i`
(the C loop runs while `i > 0` and reads `Hostname[i-1]`), `len` is the `UINT8` counter. -/
def HostnameToLabelFormat.loop (Hostname : List Nat) :
    Nat → Nat → List Nat → Option (List Nat × Nat)
  | 0, len, LabelFormat => some (LabelFormat, len)
  | i + 1, len, LabelFormat =>
    match Hostname[i]? with
    | none => none
    | some c =>
      if c = DOT then
        HostnameToLabelFormat.loop Hostname i 0 (LabelFormat.set (i + 2) len)
      else
        HostnameToLabelFormat.loop Hostname i ((len + 1) % 256) (LabelFormat.set (i + 2) c)

/-- The function `HostnameToLabelFormat(Hostname, Length)`. `Hostname` is `none` for a NULL pointer, else the
bytes readable at the pointer. `some none` is the NULL result, `some (some buf)` the pool of
`Length + 3` bytes that is returned: `buf[0]` is `Length + 2` as a byte, the wire name follows. -/
def HostnameToLabelFormat (Hostname : Option (List Nat)) (Length : Nat) :
    Option (Option (List Nat)) :=
  match Hostname with
  | none => some none
  | some h =>
    match HostnameToLabelFormat.loop h (Length % 256) 0 (List.replicate (Length + 3) 0) with
    | none => none
    | some (LabelFormat, len) =>
      some (some (((LabelFormat.set (Length + 2) 0).set 0 ((Length + 2) % 256)).set 1 len))

/-- The `do ... while` loop of `LabelFormatToHostname` that counts labels. `p` is the offset of
`LabelFormat` in `mem`; `i` and `Length` are the `UINTN` variables as integers. A length
octet from 0x80 on is a negative `CHAR8`: it lowers `Length` and moves `i` backwards. Whether
the loop goes on depends only on the byte at `i`, so a loop that comes to a position for the
second time never ends; a loop that ends has been at every position at most once and has made
at most `mem.length` rounds, which is the fuel. Result: `(Length, NumLables)`. -/
def LabelFormatToHostname.count (mem : List Nat) (p : Nat) :
    Nat → Int → Int → Nat → Option (Int × Nat)
  | 0, _, _, _ => none
  | fuel + 1, i, Length, NumLables =>
    match readUINT8At mem (p + i) with
    | none => none
    | some c =>
      match readUINT8At mem (p + (i + (CHAR8toINTN c + 1))) with
      | none => none
      | some b =>
        if b ≠ 0 then
          LabelFormatToHostname.count mem p fuel (i + (CHAR8toINTN c + 1))
            (Length + CHAR8toINTN c) (NumLables + 1)
        else
          some (Length + CHAR8toINTN c, NumLables + 1)

/-- The inner `for (k = 0; k < LabelSize; ++k) Hostname[++j] = Label[k + 1]` loop: the bytes
`Label[1 .. LabelSize]` that are appended to the output. -/
def LabelFormatToHostname.copyLabel (mem : List Nat) (Label : Nat) :
    Nat → Nat → Option (List Nat)
  | 0, _ => some []
  | n + 1, k =>
    match readUINT8 mem (Label + (k + 1)) with
    | none => none
    | some c => (LabelFormatToHostname.copyLabel mem Label n (k + 1)).map (fun r => c :: r)

/-- The outer `for (i = 0, j = -1; i < NumLables; ++i)` loop. Every write is
`Hostname[++j] = ...`, so the bytes written are collected in order; the first argument is
the number of labels left, `i` the loop variable, `Label` the offset of the label pointer. -/
def LabelFormatToHostname.fill (mem : List Nat) :
    Nat → Nat → Nat → Option (List Nat)
  | 0, _, _ => some []
  | n + 1, i, Label =>
    match (readUINT8 mem Label).bind CHAR8toUINTN with
    | none => none
    | some LabelSize =>
      match LabelFormatToHostname.copyLabel mem Label LabelSize 0 with
      | none => none
      | some bytes =>
        (LabelFormatToHostname.fill mem n (i + 1) (Label + (LabelSize + 1))).map
          (fun r => (if i ≠ 0 then [DOT] else []) ++ bytes ++ r)

/-- The function `LabelFormatToHostname(mem + p)`; the inner `none` is NULL. When
`Length + NumLables` has wrapped, `AllocateZeroPool` fails and the function returns NULL.
Otherwise the result is the pool of `Length + NumLables` zero bytes with the bytes written by
the copy loop at its start. The write `Hostname[Length] = 0` and the writes of the copy loop
are inside the pool or undefined. -/
def LabelFormatToHostname (mem : List Nat) (p : Nat) : Option (Option (List Nat)) :=
  match LabelFormatToHostname.count mem p mem.length 0 0 0 with
  | none => none
  | some (Length, NumLables) =>
    if Length + NumLables < 0 then some none
    else
      match LabelFormatToHostname.fill mem NumLables 0 p with
      | none => none
      | some written =>
        if 0 ≤ Length ∧ written.length ≤ (Length + NumLables).toNat then
          some (some (written ++
            List.replicate ((Length + NumLables).toNat - written.length) 0))
        else none

/-! ## Packet structures (DNSClientImpl.h) -/

/-- The structure `DNS_HEADER`: the id, the sixteen flag bits as bit fields, and the four counts. -/
structure DNS_HEADER where
  Id : Nat
  Rd : Nat
  Tc : Nat
  Aa : Nat
  Opcode : Nat
  Qr : Nat
  RCode : Nat
  Cd : Nat
  Ad : Nat
  Z : Nat
  Ra : Nat
  QdCount : Nat
  AnCount : Nat
  NsCount : Nat
  ArCount : Nat
  deriving DecidableEq

/-- The 12 bytes of a `DNS_HEADER` in memory (what `CopyMem` from the structure reads): little
endian 16-bit fields, bit fields allocated from the least significant bit of their unit. -/
def DNS_HEADER.toBytes (h : DNS_HEADER) : List Nat :=
  [h.Id % 256, h.Id / 256 % 256,
   h.Rd % 2 + 2 * (h.Tc % 2) + 4 * (h.Aa % 2) + 8 * (h.Opcode % 16) + 128 * (h.Qr % 2),
   h.RCode % 16 + 16 * (h.Cd % 2) + 32 * (h.Ad % 2) + 64 * (h.Z % 2) + 128 * (h.Ra % 2),
   h.QdCount % 256, h.QdCount / 256 % 256,
   h.AnCount % 256, h.AnCount / 256 % 256,
   h.NsCount % 256, h.NsCount / 256 % 256,
   h.ArCount % 256, h.ArCount / 256 % 256]

/-- The `DNS_HEADER` whose memory holds the 12 bytes at the start of `mem` (what `CopyMem` into
the structure leaves). -/
def DNS_HEADER.ofBytes (mem : List Nat) : Option DNS_HEADER :=
  match mem with
  | b0 :: b1 :: b2 :: b3 :: b4 :: b5 :: b6 :: b7 :: b8 :: b9 :: b10 :: b11 :: _ =>
    some {
      Id := b0 + 256 * b1
      Rd := b2 % 2, Tc := b2 / 2 % 2, Aa := b2 / 4 % 2, Opcode := b2 / 8 % 16, Qr := b2 / 128 % 2
      RCode := b3 % 16, Cd := b3 / 16 % 2, Ad := b3 / 32 % 2, Z := b3 / 64 % 2, Ra := b3 / 128 % 2
      QdCount := b4 + 256 * b5
      AnCount := b6 + 256 * b7
      NsCount := b8 + 256 * b9
      ArCount := b10 + 256 * b11 }
  | _ => none

/-- The all-zero header of a pool from `AllocateZeroPool`. -/
def DNS_HEADER.zero : DNS_HEADER :=
  { Id := 0, Rd := 0, Tc := 0, Aa := 0, Opcode := 0, Qr := 0, RCode := 0, Cd := 0, Ad := 0,
    Z := 0, Ra := 0, QdCount := 0, AnCount := 0, NsCount := 0, ArCount := 0 }

/-- The structure `DNS_QUESTION`. `QName` is the buffer the `CHAR8*` points to. -/
structure DNS_QUESTION where
  QName : List Nat
  QType : Nat
  QClass : Nat
  deriving DecidableEq

/-- The structure `DNS_ANSWER` (its field `Type` is `Type_` here). `Name` is the buffer the
`CHAR8*` points to; `RData` is `none` for a NULL
pointer, else the pool it points to. -/
structure DNS_ANSWER where
  Name : List Nat
  Type_ : Nat
  Class : Nat
  TTL : Nat
  RdLength : Nat
  RData : Option (List Nat)
  deriving DecidableEq

/-- What `DNS_PACKET.Data` points to: the raw question bytes of a request made by
`CreateDNSPacket`, or the `DNS_QUESTION` array followed by the `DNS_ANSWER` array that
`ReceiveDNSPacket` fills. -/
inductive DNS_PACKET_DATA where
  | raw (bytes : List Nat)
  | records (Questions : List DNS_QUESTION) (Answers : List DNS_ANSWER)
  deriving DecidableEq

/-- The structure `DNS_PACKET`. -/
structure DNS_PACKET where
  Header : DNS_HEADER
  DataLength : Nat
  Data : DNS_PACKET_DATA
  deriving DecidableEq

/-- The `DNS_QUESTION` array of a received packet. -/
def DNS_PACKET.Questions (P : DNS_PACKET) : List DNS_QUESTION :=
  match P.Data with
  | .raw _ => []
  | .records qs _ => qs

/-- The `DNS_ANSWER` array of a received packet, which starts
`sizeof(DNS_QUESTION) * QdCount` bytes into `Data`. -/
def DNS_PACKET.Answers (P : DNS_PACKET) : List DNS_ANSWER :=
  match P.Data with
  | .raw _ => []
  | .records _ as => as

/-- The statuses of `EFI_STATUS` the code names, and any further error code of the transport. -/
inductive EFI_STATUS where
  | EFI_SUCCESS
  | EFI_INVALID_PARAMETER
  | EFI_OUT_OF_RESOURCES
  | EFI_ABORTED
  | EFI_NOT_READY
  | otherError (code : Nat)
  deriving DecidableEq

/-- The macro `EFI_ERROR`. -/
def EFI_ERROR (s : EFI_STATUS) : Bool :=
  match s with
  | .EFI_SUCCESS => false
  | _ => true

/-! ## Building and sending a request -/

/-- The call `CopyMem(dst + off, src, src.length)`; undefined when the bytes do not fit in `dst`. -/
def CopyMem (dst : List Nat) (off : Nat) (src : List Nat) : Option (List Nat) :=
  if off + src.length ≤ dst.length then
    some (dst.take off ++ src ++ dst.drop (off + src.length))
  else none

/-- The bytes `mem[off .. off + n - 1]` as the source of a `CopyMem`; undefined when they are
not all inside `mem`. -/
def readBytes (mem : List Nat) (off n : Nat) : Option (List Nat) :=
  if off + n ≤ mem.length then some ((mem.drop off).take n) else none

/-- The value of `sizeof(DNS_QUESTION)` on X64: an 8-byte pointer, two `UINT16`, 4 bytes of padding. -/
def sizeof_DNS_QUESTION : Nat := 16

/-- The value of `sizeof(CHAR8*)` on X64. -/
def sizeof_pointer : Nat := 8

/-- The value of `sizeof(DNS_HEADER)`. -/
def sizeof_DNS_HEADER : Nat := 12

/-- The first `for` loop of `CreateDNSPacket`: `TotalStringSizes += Questions[i].QName[0]`. A
negative `QName[0]` only wraps the sum here, but the second loop passes the same `QName[0]` of
the same question to `CopyMem` as its length, so the function has no defined result and the
wrapped sum is not kept. -/
def CreateDNSPacket.total (Questions : List DNS_QUESTION) : Nat → Nat → Nat → Option Nat
  | 0, _, TotalStringSizes => some TotalStringSizes
  | n + 1, i, TotalStringSizes =>
    match Questions[i]? with
    | none => none
    | some q =>
      match (readUINT8 q.QName 0).bind CHAR8toUINTN with
      | none => none
      | some l => CreateDNSPacket.total Questions n (i + 1) (TotalStringSizes + l)

/-- The second `for` loop of `CreateDNSPacket`: the name bytes `QName[1 .. QName[0]]`, then
the `sizeof(DNS_QUESTION) - sizeof(QName)` bytes of the structure that follow the pointer:
`QType`, `QClass` and the padding, which is zero in a structure cleared by `ZeroMem`. -/
def CreateDNSPacket.copy (Questions : List DNS_QUESTION) :
    Nat → Nat → Nat → List Nat → Option (List Nat)
  | 0, _, _, Data => some Data
  | n + 1, i, len, Data =>
    match Questions[i]? with
    | none => none
    | some q =>
      match (readUINT8 q.QName 0).bind CHAR8toUINTN with
      | none => none
      | some l =>
        match readBytes q.QName 1 l with
        | none => none
        | some name =>
          match CopyMem Data len name with
          | none => none
          | some Data1 =>
            match CopyMem Data1 (len + l)
                ([q.QType % 256, q.QType / 256 % 256, q.QClass % 256, q.QClass / 256 % 256] ++
                  List.replicate (sizeof_DNS_QUESTION - sizeof_pointer - 4) 0) with
            | none => none
            | some Data2 =>
              CreateDNSPacket.copy Questions n (i + 1)
                (len + l + (sizeof_DNS_QUESTION - sizeof_pointer)) Data2

/-- The function `CreateDNSPacket(Questions, NumQuestions)`. -/
def CreateDNSPacket (Questions : List DNS_QUESTION) (NumQuestions : Nat) : Option DNS_PACKET :=
  match CreateDNSPacket.total Questions NumQuestions 0 0 with
  | none => none
  | some TotalStringSizes =>
    let DataLength :=
      (TotalStringSizes + (sizeof_DNS_QUESTION - sizeof_pointer) * NumQuestions) % 65536
    match CreateDNSPacket.copy Questions NumQuestions 0 0 (List.replicate DataLength 0) with
    | none => none
    | some Data =>
      some { Header := { DNS_HEADER.zero with QdCount := HTONS NumQuestions }
             DataLength := DataLength
             Data := .raw Data }

/-- The structure `DNSCLIENT_PRIVATE_DATA`: of its fields only `IdIterator` is data of the DNS exchange, the
others are firmware handles. -/
structure DNSCLIENT_PRIVATE_DATA where
  IdIterator : Nat
  deriving DecidableEq

/-- What the UDP4 firmware does during one exchange: the status `SendDNSPacket` ends with
(from `CreateEvent`, `Transmit` and `Poll`), and for `ReceiveDNSPacket` either an error status
of `CreateEvent`, `Receive` or `Poll`, or the datagram delivered in `RxData` (its fragments
joined; `DataLength` is its length). -/
structure EFI_UDP4_PROTOCOL where
  SendStatus : EFI_STATUS
  Received : Except EFI_STATUS (List Nat)

/-- The function `SendDNSPacket`: the status, and the buffer handed to `Transmit`, which is the 12 bytes at
the start of the packet structure followed by `DataLength` bytes of `Data`. -/
def SendDNSPacket (Udp4 : EFI_UDP4_PROTOCOL) (Instance : Option DNSCLIENT_PRIVATE_DATA)
    (Packet : Option DNS_PACKET) : Option (EFI_STATUS × Option (List Nat)) :=
  match Instance, Packet with
  | none, _ => some (.EFI_INVALID_PARAMETER, none)
  | _, none => some (.EFI_INVALID_PARAMETER, none)
  | some _, some P =>
    match P.Data with
    | .records _ _ => none
    | .raw Data =>
      match readBytes Data 0 P.DataLength with
      | none => none
      | some bytes => some (Udp4.SendStatus, some (P.Header.toBytes ++ bytes))

/-! ## Receiving and decoding a response -/

/-- The loop `while(*(BufferIterator++) != (CHAR8) 0);`: the cursor after the first zero byte.
The first argument is the buffer from the cursor on, the second the cursor. -/
def ReceiveDNSPacket.skipName : List Nat → Nat → Option Nat
  | [], _ => none
  | b :: rest, it => if b ≠ 0 then ReceiveDNSPacket.skipName rest (it + 1) else some (it + 1)

/-- The name of a question at cursor `it` (`none` for the NULL that `LabelFormatToHostname`
returned) and the cursor after it. A name whose first byte has its two top bits set is taken
as a pointer, with `namePtr = ((*BufferIterator << 8) ^ 0xC0) | *(BufferIterator+1)`. The
cursor is moved before the name is compared with NULL. -/
def ReceiveDNSPacket.questionName (Buffer : List Nat) (it : Nat) :
    Option (Option (List Nat) × Nat) :=
  match readUINT8 Buffer it with
  | none => none
  | some b0 =>
    if b0 &&& 0xC0 = 0xC0 then
      match readUINT8 Buffer (it + 1) with
      | none => none
      | some b1 =>
        let namePtr := (((b0 <<< 8) ^^^ 0xC0) ||| b1) % 65536
        (LabelFormatToHostname Buffer namePtr).map (fun QName => (QName, it + 2))
    else
      match LabelFormatToHostname Buffer it with
      | none => none
      | some QName =>
        (ReceiveDNSPacket.skipName (Buffer.drop it) it).map (fun it1 => (QName, it1))

/-- The name of an answer at cursor `it` (`none` for the NULL that `LabelFormatToHostname`
returned) and the cursor after it. For a pointer,
`namePtr = (*BufferIterator << 8) | *(BufferIterator+1)` and then `namePtr ^ 0xC000`. The
cursor is moved before the name is compared with NULL. -/
def ReceiveDNSPacket.answerName (Buffer : List Nat) (it : Nat) :
    Option (Option (List Nat) × Nat) :=
  match readUINT8 Buffer it with
  | none => none
  | some b0 =>
    if b0 &&& 0xC0 = 0xC0 then
      match readUINT8 Buffer (it + 1) with
      | none => none
      | some b1 =>
        let namePtr := ((((b0 <<< 8) ||| b1) % 65536) ^^^ 0xC000) % 65536
        (LabelFormatToHostname Buffer namePtr).map (fun Name => (Name, it + 2))
    else
      match LabelFormatToHostname Buffer it with
      | none => none
      | some Name =>
        (ReceiveDNSPacket.skipName (Buffer.drop it) it).map (fun it1 => (Name, it1))

/-- The `for` loop over the questions: `n` questions are left, `it` is `BufferIterator`.
Result: the questions decoded and the cursor after them; the inner `none` is the exit
`GotoStatus(CLEANUP, EFI_OUT_OF_RESOURCES)` that is taken when a name is NULL. -/
def ReceiveDNSPacket.questions (Buffer : List Nat) :
    Nat → Nat → Option (Option (List DNS_QUESTION × Nat))
  | 0, it => some (some ([], it))
  | n + 1, it =>
    match ReceiveDNSPacket.questionName Buffer it with
    | none => none
    | some (none, _) => some none
    | some (some QName, it1) =>
      match readUINT16 Buffer it1, readUINT16 Buffer (it1 + 2) with
      | some t, some c =>
        (ReceiveDNSPacket.questions Buffer n (it1 + 4)).map
          (Option.map (fun r =>
            ({ QName := QName, QType := HTONS t, QClass := HTONS c } :: r.1, r.2)))
      | _, _ => none

/-- The `for` loop over the answers: `n` answers are left, `it` is `BufferIterator`. After
`RdLength` the cursor is not moved again in the loop body; for type 1 the four bytes at the
cursor are copied to a new `A_RECORD`, for every other type `RData` stays NULL. The inner
`none` of the result is the exit `GotoStatus(CLEANUP, EFI_OUT_OF_RESOURCES)` that is taken
when a name is NULL. -/
def ReceiveDNSPacket.answers (Buffer : List Nat) :
    Nat → Nat → Option (Option (List DNS_ANSWER × Nat))
  | 0, it => some (some ([], it))
  | n + 1, it =>
    match ReceiveDNSPacket.answerName Buffer it with
    | none => none
    | some (none, _) => some none
    | some (some Name, it1) =>
      match readUINT16 Buffer it1, readUINT16 Buffer (it1 + 2), readUINT32 Buffer (it1 + 4),
          readUINT16 Buffer (it1 + 8) with
      | some t, some c, some ttl, some l =>
        let it2 := it1 + 10
        let RData : Option (Option (List Nat)) :=
          if HTONS t = 1 then (readBytes Buffer it2 4).map some else some none
        match RData with
        | none => none
        | some RData =>
          (ReceiveDNSPacket.answers Buffer n it2).map
            (Option.map (fun r =>
              ({ Name := Name, Type_ := HTONS t, Class := HTONS c, TTL := HTONS ttl,
                 RdLength := HTONS l, RData := RData } :: r.1, r.2)))
      | _, _, _, _ => none

/-- The decoding part of `ReceiveDNSPacket` (from the allocation of `Buffer` to the end): the
datagram is copied into a zeroed pool that is `sizeof(DNS_HEADER)` bytes longer, the header is
copied out and its 16-bit fields byte-swapped, then `QdCount` questions and `AnCount` answers
are decoded. No length is compared with the size of the datagram anywhere. The result is
`*Packet`: the packet when the status is `EFI_SUCCESS`, and the inner `none` is the NULL that
`SafeRelease(*Packet)` leaves when a name is NULL and the status is `EFI_OUT_OF_RESOURCES`. -/
def ReceiveDNSPacket.decode (datagram : List Nat) : Option (Option DNS_PACKET) :=
  let Buffer := datagram ++ List.replicate sizeof_DNS_HEADER 0
  match DNS_HEADER.ofBytes Buffer with
  | none => none
  | some raw =>
    let Header : DNS_HEADER :=
      { raw with Id := HTONS raw.Id, QdCount := HTONS raw.QdCount, AnCount := HTONS raw.AnCount,
                 NsCount := HTONS raw.NsCount, ArCount := HTONS raw.ArCount }
    match ReceiveDNSPacket.questions Buffer Header.QdCount sizeof_DNS_HEADER with
    | none => none
    | some none => some none
    | some (some (Questions, it)) =>
      match ReceiveDNSPacket.answers Buffer Header.AnCount it with
      | none => none
      | some none => some none
      | some (some (Answers, _)) =>
        some (some { Header := Header, DataLength := 0, Data := .records Questions Answers })

/-- The function `ReceiveDNSPacket(Instance, Packet)`: the status and `*Packet`. `Packet` is a non-NULL
pointer in the one caller. -/
def ReceiveDNSPacket (Udp4 : EFI_UDP4_PROTOCOL) (Instance : Option DNSCLIENT_PRIVATE_DATA) :
    Option (EFI_STATUS × Option DNS_PACKET) :=
  match Instance with
  | none => some (.EFI_INVALID_PARAMETER, none)
  | some _ =>
    match Udp4.Received with
    | .error s => some (s, none)
    | .ok datagram =>
      match ReceiveDNSPacket.decode datagram with
      | none => none
      | some none => some (.EFI_OUT_OF_RESOURCES, none)
      | some (some P) => some (.EFI_SUCCESS, some P)

/-! ## The resolver entry point -/

/-- The function `AsciiStrnLenS(String, MaxSize)` of EDK2 `BaseLib`: the number of bytes before the first
NUL, or `MaxSize` when there is none among the first `MaxSize` bytes. The first argument is
the memory left to scan, the second the bound left, the third the count so far. -/
def AsciiStrnLenS : List Nat → Nat → Nat → Option Nat
  | _, 0, n => some n
  | [], _ + 1, _ => none
  | b :: rest, k + 1, n => if b = 0 then some n else AsciiStrnLenS rest k (n + 1)

/-- What a call of `GetHostByName` leaves: the status returned, the four bytes of
`*IpAddress` (`none` for a NULL pointer), the private data, and the buffer that was handed to
the transport for transmission, if any. -/
structure GetHostByNameResult where
  Status : EFI_STATUS
  IpAddress : Option (List Nat)
  Instance : Option DNSCLIENT_PRIVATE_DATA
  Transmitted : Option (List Nat)
  deriving DecidableEq

/-- The part of `GetHostByName` from the return of `SendDNSPacket` on: `Status` and `Sent` are
what `SendDNSPacket` gave, `I1` is the private data after the id was taken. One datagram is
received; its header id is not compared with the id of the request, and only the answer at
the start of the `DNS_ANSWER` array is looked at. -/
def GetHostByName.finish (Udp4 : EFI_UDP4_PROTOCOL) (I1 : DNSCLIENT_PRIVATE_DATA)
    (Status : EFI_STATUS) (Sent : Option (List Nat)) : Option GetHostByNameResult :=
  let Ip0 : List Nat := [0, 0, 0, 0]
  if EFI_ERROR Status then some ⟨Status, some Ip0, some I1, Sent⟩
  else
    match ReceiveDNSPacket Udp4 (some I1) with
    | none => none
    | some (Status, Response) =>
      if EFI_ERROR Status then some ⟨Status, some Ip0, some I1, Sent⟩
      else
        match Response with
        | none => none
        | some R =>
          if R.Header.AnCount = 0 then some ⟨.EFI_ABORTED, some Ip0, some I1, Sent⟩
          else
            match R.Answers with
            | [] => none
            | Answer :: _ =>
              if Answer.Type_ = 1 then
                match Answer.RData.bind (fun rd => readBytes rd 0 4) with
                | none => none
                | some Ip => some ⟨.EFI_SUCCESS, some Ip, some I1, Sent⟩
              else some ⟨.EFI_SUCCESS, some Ip0, some I1, Sent⟩

/-- The function `GetHostByName(Instance, Hostname, IpAddress)`. `Hostname` holds the bytes readable at the
pointer (a NUL-terminated string), `IpAddress` the four bytes of the caller, which
`ZeroMem(IpAddress, sizeof(IpAddress))` clears first. -/
def GetHostByName (Udp4 : EFI_UDP4_PROTOCOL) (Instance : Option DNSCLIENT_PRIVATE_DATA)
    (Hostname : Option (List Nat)) (IpAddress : Option (List Nat)) :
    Option GetHostByNameResult :=
  match Instance, Hostname, IpAddress with
  | none, _, _ => some ⟨.EFI_INVALID_PARAMETER, IpAddress, Instance, none⟩
  | some _, none, _ => some ⟨.EFI_INVALID_PARAMETER, IpAddress, Instance, none⟩
  | some _, some _, none => some ⟨.EFI_INVALID_PARAMETER, IpAddress, Instance, none⟩
  | some I, some h, some _ =>
    match (AsciiStrnLenS h 255 0).bind (HostnameToLabelFormat (some h)) with
    | some (some QName) =>
      match CreateDNSPacket [{ QName := QName, QType := HTONS 1, QClass := HTONS 1 }] 1 with
      | none => none
      | some Created =>
        let I1 : DNSCLIENT_PRIVATE_DATA := { IdIterator := (I.IdIterator + 1) % 65536 }
        let Request : DNS_PACKET :=
          { Created with
            Header := { Created.Header with Id := HTONS I1.IdIterator, Rd := 1, Ad := 1 } }
        match SendDNSPacket Udp4 (some I1) (some Request) with
        | none => none
        | some (Status, Sent) => GetHostByName.finish Udp4 I1 Status Sent
    | _ => none

/-- The function `CreateDNSClient(Instance)`: the status and the private data. A NULL `Instance` is
refused; otherwise `Instance->IdIterator = 0` is stored before the first firmware call, so
the counter is 0 whatever the calls give. `Firmware` is the status the function ends with
after these calls (`EFI_SUCCESS` when all succeed, else `EFI_ABORTED` or the status of the
call that failed). -/
def CreateDNSClient (Firmware : EFI_STATUS) (Instance : Option DNSCLIENT_PRIVATE_DATA) :
    EFI_STATUS × Option DNSCLIENT_PRIVATE_DATA :=
  match Instance with
  | none => (.EFI_INVALID_PARAMETER, none)
  | some _ => (Firmware, some { IdIterator := 0 })

/-! ## Specification vocabulary -/

/-- The labels of a wire name: each label as a length octet followed by its bytes. -/
def wireLabels : List (List Nat) → List Nat
  | [] => []
  | l :: ls => l.length :: l ++ wireLabels ls

/-- A wire name in label format: the labels followed by the zero octet. -/
def wireName (ls : List (List Nat)) : List Nat := wireLabels ls ++ [0]

/-- The labels written one after the other, each but the very first (`i = 0`) preceded by
the delimiter. -/
def dotsep : Nat → List (List Nat) → List Nat
  | _, [] => []
  | i, l :: ls => (if i ≠ 0 then [DOT] else []) ++ l ++ dotsep (i + 1) ls

/-- The dotted form of a list of labels: the labels joined by the delimiter. -/
def dotted (ls : List (List Nat)) : List Nat := dotsep 0 ls

/-- The sum of the label lengths. -/
def labelBytes : List (List Nat) → Nat
  | [] => 0
  | l :: ls => l.length + labelBytes ls

/-- Labels as the wire format admits them: 1 to 63 bytes each. -/
def LabelsOk (ls : List (List Nat)) : Prop := ∀ l ∈ ls, 1 ≤ l.length ∧ l.length ≤ 63

/-- No label holds a NUL byte. -/
def NoNul (ls : List (List Nat)) : Prop := ∀ l ∈ ls, ∀ b ∈ l, b ≠ 0

/-- No label holds the delimiter byte. -/
def NoDot (ls : List (List Nat)) : Prop := ∀ l ∈ ls, ∀ b ∈ l, b ≠ DOT

/-- The right-to-left scan of `HostnameToLabelFormat` as a function of the part of the
hostname already passed: the bytes stored for it, and the length of the label that is open. -/
def encBody : List Nat → List Nat × Nat
  | [] => ([], 0)
  | c :: s => if c = DOT then ((encBody s).2 :: (encBody s).1, 0)
              else (c :: (encBody s).1, (encBody s).2 + 1)

/-- The wire name `HostnameToLabelFormat` stores for the hostname `h`. -/
def wireOf (h : List Nat) : List Nat := (encBody h).2 :: (encBody h).1 ++ [0]

/-- The datagram `GetHostByName` hands to the transport for the hostname `h` when the id
counter held `c`: header with the new id, RD and AD set and one question; the wire name;
type 1 and class 1; the four padding bytes of `DNS_QUESTION`. -/
def requestOf (c : Nat) (h : List Nat) : List Nat :=
  DNS_HEADER.toBytes { DNS_HEADER.zero with
      Id := HTONS ((c + 1) % 65536), Rd := 1, Ad := 1, QdCount := 256 } ++
    (wireOf h ++ [0, 1, 0, 1, 0, 0, 0, 0])

/-- A response with one question and one address record: header (id `i0 i1`, flags `f0 f1`,
QDCOUNT 1, ANCOUNT 1, NSCOUNT `n0 n1`, ARCOUNT `r0 r1`), the question name `qname` with type
and class, the answer name `aname`, type 1, class `c0 c1`, four TTL bytes, RDLENGTH 4, the
address `a b c d`, and whatever follows. -/
def addressResponse (i0 i1 f0 f1 n0 n1 r0 r1 : Nat) (qname : List Nat)
    (qt0 qt1 qc0 qc1 : Nat) (aname : List Nat) (c0 c1 t0 t1 t2 t3 a b c d : Nat)
    (rest : List Nat) : List Nat :=
  [i0, i1, f0, f1, 0, 1, 0, 1, n0, n1, r0, r1] ++ (qname ++ ([qt0, qt1, qc0, qc1] ++
    (aname ++ ([0, 1, c0, c1, t0, t1, t2, t3, 0, 4, a, b, c, d] ++ rest))))

instance (ls : List (List Nat)) : Decidable (LabelsOk ls) := by unfold LabelsOk; infer_instance

instance (ls : List (List Nat)) : Decidable (NoNul ls) := by unfold NoNul; infer_instance

instance (ls : List (List Nat)) : Decidable (NoDot ls) := by unfold NoDot; infer_instance

/-- The segments of a hostname: the runs of bytes between its delimiter bytes, in order
(one more than there are delimiters; the empty hostname has one empty segment). -/
def splitDots : List Nat → List (List Nat)
  | [] => [[]]
  | c :: s =>
    if c = DOT then [] :: splitDots s
    else
      match splitDots s with
      | [] => [[c]]
      | l :: ls => (c :: l) :: ls

/-- The queries of one client: successive calls of `GetHostByName` on the same private data,
each with its own firmware behaviour and hostname. The result is the list of the requests
handed to the transport, in order, and the private data after the last call; `none` when a
call is undefined or builds no request. -/
def runQueries :
    List (EFI_UDP4_PROTOCOL × List Nat) → Option DNSCLIENT_PRIVATE_DATA →
      Option (List (List Nat) × Option DNSCLIENT_PRIVATE_DATA)
  | [], Instance => some ([], Instance)
  | (Udp4, Hostname) :: rest, Instance =>
    match GetHostByName Udp4 Instance (some Hostname) (some [0, 0, 0, 0]) with
    | none => none
    | some r =>
      match r.Transmitted with
      | none => none
      | some sent => (runQueries rest r.Instance).map (fun q => (sent :: q.1, q.2))

/-- The offset a compression pointer `b0 b1` stands for, in the words of the specification:
the low 6 bits of the first octet concatenated with the second octet. -/
def pointerOffset (b0 b1 : Nat) : Nat := ((b0 &&& 0x3F) <<< 8) ||| b1

/-! ## Test vectors -/

/-- The hostname `example.com`. -/
def exampleHost : List Nat := [101, 120, 97, 109, 112, 108, 101, 46, 99, 111, 109]

/-- The labels `example` and `com`. -/
def exampleLabels : List (List Nat) := [[101, 120, 97, 109, 112, 108, 101], [99, 111, 109]]

/-- The request `GetHostByName` sends for `example.com` when the id counter holds 0. -/
def exampleRequest : List Nat :=
  [0, 1, 1, 32, 0, 1, 0, 0, 0, 0, 0, 0,
   7, 101, 120, 97, 109, 112, 108, 101, 3, 99, 111, 109, 0, 0, 1, 0, 1, 0, 0, 0, 0]

/-- A response with id 1 for `example.com`: one question, one address record
`93.184.216.34` whose name is the pointer `C0 0C`. -/
def sampleResponse : List Nat :=
  [0, 1, 129, 128, 0, 1, 0, 1, 0, 0, 0, 0,
   7, 101, 120, 97, 109, 112, 108, 101, 3, 99, 111, 109, 0, 0, 1, 0, 1,
   192, 12, 0, 1, 0, 1, 0, 0, 14, 16, 0, 4, 93, 184, 216, 34]

/-- What `sampleResponse` decodes to. -/
def samplePacket : DNS_PACKET :=
  { Header := { Id := 1, Rd := 1, Tc := 0, Aa := 0, Opcode := 0, Qr := 1, RCode := 0, Cd := 0,
                Ad := 0, Z := 0, Ra := 1, QdCount := 1, AnCount := 1, NsCount := 0,
                ArCount := 0 }
    DataLength := 0
    Data := .records
      [{ QName := exampleHost ++ [0], QType := 1, QClass := 1 }]
      [{ Name := exampleHost ++ [0], Type_ := 1, Class := 1, TTL := 0, RdLength := 4,
         RData := some [93, 184, 216, 34] }] }

/-- A response without question whose answer name, at offset 12, is the pointer `C0 1C` to
offset 28, behind the record, where the labels of `a` stand. -/
def forwardPointerResponse : List Nat :=
  [0, 1, 129, 128, 0, 0, 0, 1, 0, 0, 0, 0,
   192, 28, 0, 1, 0, 1, 0, 0, 14, 16, 0, 4, 1, 2, 3, 4,
   1, 97, 0]

/-- The response `sampleResponse` with the id 0x1234 in its header. -/
def mismatchedResponse : List Nat :=
  [18, 52, 129, 128, 0, 1, 0, 1, 0, 0, 0, 0,
   7, 101, 120, 97, 109, 112, 108, 101, 3, 99, 111, 109, 0, 0, 1, 0, 1,
   192, 12, 0, 1, 0, 1, 0, 0, 14, 16, 0, 4, 93, 184, 216, 34]

/-- A response for `example.com` whose one answer is a name-server record (type 2) with the
resource data `ns1` followed by a pointer. -/
def nsResponse : List Nat :=
  [0, 1, 129, 128, 0, 1, 0, 1, 0, 0, 0, 0,
   7, 101, 120, 97, 109, 112, 108, 101, 3, 99, 111, 109, 0, 0, 2, 0, 1,
   192, 12, 0, 2, 0, 1, 0, 0, 14, 16, 0, 6, 3, 110, 115, 49, 192, 12]

/-- What `nsResponse` decodes to. -/
def nsPacket : DNS_PACKET :=
  { Header := samplePacket.Header
    DataLength := 0
    Data := .records
      [{ QName := exampleHost ++ [0], QType := 2, QClass := 1 }]
      [{ Name := exampleHost ++ [0], Type_ := 2, Class := 1, TTL := 0, RdLength := 6,
         RData := none }] }

/-- A response for `example.com` with two answers: a CNAME record (type 5) to `b.c`, then
the address record `93.184.216.34` of `b.c`. -/
def cnameResponse : List Nat :=
  [0, 1, 129, 128, 0, 1, 0, 2, 0, 0, 0, 0,
   7, 101, 120, 97, 109, 112, 108, 101, 3, 99, 111, 109, 0, 0, 1, 0, 1,
   192, 12, 0, 5, 0, 1, 0, 0, 14, 16, 0, 5, 1, 98, 1, 99, 0,
   1, 98, 1, 99, 0, 0, 1, 0, 1, 0, 0, 14, 16, 0, 4, 93, 184, 216, 34]

/-- A response for `example.com` with RCODE 3 and no answer. -/
def noAnswerResponse : List Nat :=
  [0, 1, 129, 131, 0, 1, 0, 0, 0, 0, 0, 0,
   7, 101, 120, 97, 109, 112, 108, 101, 3, 99, 111, 109, 0, 0, 1, 0, 1]

/-- What `noAnswerResponse` decodes to. -/
def noAnswerPacket : DNS_PACKET :=
  { Header := { samplePacket.Header with RCode := 3, AnCount := 0 }
    DataLength := 0
    Data := .records [{ QName := exampleHost ++ [0], QType := 1, QClass := 1 }] [] }

/-- A hostname of one segment of 64 bytes (64 times the letter `a`). -/
def longLabelHost : List Nat := List.replicate 64 97

/-- The hostname `www.example.com`. -/
def wwwHost : List Nat := [119, 119, 119, 46] ++ exampleHost

/-- A response for `example.com` whose answer name, at offset 29, is the label `www`
followed by the pointer `C0 0C` to the question name at offset 12. -/
def wwwResponse : List Nat :=
  [0, 1, 129, 128, 0, 1, 0, 1, 0, 0, 0, 0,
   7, 101, 120, 97, 109, 112, 108, 101, 3, 99, 111, 109, 0, 0, 1, 0, 1,
   3, 119, 119, 119, 192, 12, 0, 1, 0, 1, 0, 0, 14, 16, 0, 4, 93, 184, 216, 34]

/-- A response for `example.com` with two address records, `93.184.216.34` and
`93.184.216.35`, each named by the pointer `C0 0C`. -/
def twoAddressResponse : List Nat :=
  [0, 1, 129, 128, 0, 1, 0, 2, 0, 0, 0, 0,
   7, 101, 120, 97, 109, 112, 108, 101, 3, 99, 111, 109, 0, 0, 1, 0, 1,
   192, 12, 0, 1, 0, 1, 0, 0, 14, 16, 0, 4, 93, 184, 216, 34,
   192, 12, 0, 1, 0, 1, 0, 0, 14, 16, 0, 4, 93, 184, 216, 35]

/-- A response for `example.com` whose one address record has the TTL bytes `01 02 03 04`. -/
def ttlResponse : List Nat :=
  [0, 1, 129, 128, 0, 1, 0, 1, 0, 0, 0, 0,
   7, 101, 120, 97, 109, 112, 108, 101, 3, 99, 111, 109, 0, 0, 1, 0, 1,
   192, 12, 0, 1, 0, 1, 1, 2, 3, 4, 0, 4, 93, 184, 216, 34]

/-- A message with two questions and no answer: `example.com` with type 1 at offset 12, and at
offset 29 a question of type 28 whose name is the pointer `C0 0C` to the first name. -/
def twoQuestionResponse : List Nat :=
  [0, 1, 129, 128, 0, 2, 0, 0, 0, 0, 0, 0,
   7, 101, 120, 97, 109, 112, 108, 101, 3, 99, 111, 109, 0, 0, 1, 0, 1,
   192, 12, 0, 28, 0, 1]

/-- The hostname `example.com.` with its trailing dot. -/
def trailingDotHost : List Nat := exampleHost ++ [46]

/-- The hostname `a..b`. -/
def doubleDotHost : List Nat := [97, 46, 46, 98]

/-- A hostname of 126 bytes: a label of 63 bytes (the letter `a`), a dot, and a label of 62
bytes (the letter `b`). -/
def longHost : List Nat := List.replicate 63 97 ++ 46 :: List.replicate 62 98

/-- A response whose question is the root name (the one octet 0 at offset 12) with type 257
and class 1, so that the root name is followed by the bytes `01 01 00 01`, and whose one
address record, at offset 17, is named by the pointer `C0 0C` to the root name. -/
def rootPointerResponse : List Nat :=
  [0, 1, 129, 128, 0, 1, 0, 1, 0, 0, 0, 0,
   0, 1, 1, 0, 1,
   192, 12, 0, 1, 0, 1, 0, 0, 14, 16, 0, 4, 1, 2, 3, 4]

/-- A response for `example.com` whose answer name, at offset 29, is a label of 41 bytes (the
letter `a`) followed by the pointer `C0 0C`, which stands at offset 71. -/
def longLabelPointerResponse : List Nat :=
  [0, 1, 129, 128, 0, 1, 0, 1, 0, 0, 0, 0,
   7, 101, 120, 97, 109, 112, 108, 101, 3, 99, 111, 109, 0, 0, 1, 0, 1] ++
  (41 :: List.replicate 41 97 ++
    [192, 12, 0, 1, 0, 1, 0, 0, 14, 16, 0, 4, 93, 184, 216, 34])

/-- The hostname of a label of 130 bytes (the letter `a`) and a trailing dot. -/
def hugeLabelHost : List Nat := List.replicate 130 97 ++ [46]

/-! ## Lemmas -/

theorem readUINT8_drop (mem : List Nat) (p k : Nat) :
    readUINT8 mem (p + k) = (mem.drop p)[k]? := by
  simp [readUINT8, List.getElem?_drop]

theorem copyLabel_spec (mem : List Nat) (Label : Nat) (l : List Nat) :
    ∀ (k : Nat) (rest : List Nat), mem.drop (Label + (k + 1)) = l ++ rest →
      LabelFormatToHostname.copyLabel mem Label l.length k = some l := by
  induction l with
  | nil => intro k rest _; simp [LabelFormatToHostname.copyLabel]
  | cons c l ih =>
    intro k rest h
    have h0 : readUINT8 mem (Label + (k + 1)) = some c := by
      have := readUINT8_drop mem (Label + (k + 1)) 0
      simpa [h] using this
    have h1 : mem.drop (Label + (k + 1 + 1)) = l ++ rest := by
      have : mem.drop (Label + (k + 1 + 1)) = (mem.drop (Label + (k + 1))).drop 1 := by
        rw [List.drop_drop]; rfl
      rw [this, h]; simp
    simp [LabelFormatToHostname.copyLabel, h0, ih (k + 1) rest h1]

theorem drop_add_of_drop_eq (mem : List Nat) (a : Nat) (x y : List Nat)
    (h : mem.drop a = x ++ y) : mem.drop (a + x.length) = y := by
  have : mem.drop (a + x.length) = (mem.drop a).drop x.length := by
    rw [List.drop_drop, Nat.add_comm]
  rw [this, h]; simp

theorem readUINT8_of_drop (mem : List Nat) (a b : Nat) (rest : List Nat)
    (h : mem.drop a = b :: rest) : readUINT8 mem a = some b := by
  have := readUINT8_drop mem a 0
  simpa [h] using this

theorem fill_spec (mem : List Nat) (ls : List (List Nat)) :
    ∀ (i Label : Nat) (rest : List Nat), (∀ l ∈ ls, l.length < 128) →
      mem.drop Label = wireLabels ls ++ rest →
      LabelFormatToHostname.fill mem ls.length i Label = some (dotsep i ls) := by
  induction ls with
  | nil => intro i Label rest _ _; simp [LabelFormatToHostname.fill, dotsep]
  | cons l ls ih =>
    intro i Label rest hl h
    have hlen : l.length < 128 := hl l (by simp)
    have h0 : readUINT8 mem Label = some l.length :=
      readUINT8_of_drop mem Label l.length (l ++ wireLabels ls ++ rest) (by
        rw [h]; simp [wireLabels])
    have h1 : mem.drop (Label + (0 + 1)) = l ++ (wireLabels ls ++ rest) := by
      have := drop_add_of_drop_eq mem Label [l.length] (l ++ (wireLabels ls ++ rest)) (by
        rw [h]; simp [wireLabels])
      simpa using this
    have h2 : mem.drop (Label + (l.length + 1)) = wireLabels ls ++ rest := by
      have := drop_add_of_drop_eq mem Label (l.length :: l) (wireLabels ls ++ rest) (by
        rw [h]; simp [wireLabels])
      simpa using this
    have ih1 := ih (i + 1) (Label + (l.length + 1)) rest
      (fun x hx => hl x (List.mem_cons_of_mem _ hx)) h2
    simp [LabelFormatToHostname.fill, h0, CHAR8toUINTN, hlen,
      copyLabel_spec mem Label l 0 _ h1, ih1, dotsep]

/-- A read at an offset that is a natural number. -/
theorem readUINT8At_natCast (mem : List Nat) (k : Nat) :
    readUINT8At mem (k : Int) = readUINT8 mem k := by
  simp [readUINT8At]

/-- A length octet below 0x80 is the same signed or unsigned. -/
theorem CHAR8toINTN_of_lt (b : Nat) (h : b < 128) : CHAR8toINTN b = (b : Int) := by
  simp [CHAR8toINTN, h]

/-- One round of the counting loop at a label of less than 128 bytes. -/
theorem count_step (mem : List Nat) (p fuel i c b NumLables : Nat) (Length : Int)
    (hc : c < 128) (h0 : readUINT8 mem (p + i) = some c)
    (h1 : readUINT8 mem (p + (i + (c + 1))) = some b) :
    LabelFormatToHostname.count mem p (fuel + 1) (i : Int) Length NumLables =
      if b ≠ 0 then
        LabelFormatToHostname.count mem p fuel ((i + (c + 1) : Nat) : Int) (Length + (c : Int))
          (NumLables + 1)
      else some (Length + (c : Int), NumLables + 1) := by
  have e0 : ((p : Int) + (i : Int)) = ((p + i : Nat) : Int) := by push_cast; rfl
  have e2 : ((i : Int) + ((c : Int) + 1)) = ((i + (c + 1) : Nat) : Int) := by push_cast; rfl
  have e1 : ((p : Int) + ((i + (c + 1) : Nat) : Int)) = ((p + (i + (c + 1)) : Nat) : Int) := by
    push_cast; rfl
  simp only [LabelFormatToHostname.count, e0, readUINT8At_natCast, h0, CHAR8toINTN_of_lt c hc,
    e2, e1, h1]

theorem count_spec (mem : List Nat) (p : Nat) (ls : List (List Nat)) :
    ∀ (fuel i NumLables : Nat) (Length : Int) (rest : List Nat), ls ≠ [] → ls.length ≤ fuel →
      (∀ l ∈ ls, 1 ≤ l.length ∧ l.length < 128) →
      mem.drop (p + i) = wireLabels ls ++ 0 :: rest →
      LabelFormatToHostname.count mem p fuel (i : Int) Length NumLables =
        some (Length + (labelBytes ls : Int), NumLables + ls.length) := by
  induction ls with
  | nil => intro _ _ _ _ _ h; exact absurd rfl h
  | cons l ls ih =>
    intro fuel i NumLables Length rest _ hfuel hl h
    have hlen := hl l (by simp)
    obtain ⟨fuel1, rfl⟩ : ∃ f, fuel = f + 1 := ⟨fuel - 1, by simp at hfuel; omega⟩
    have h0 : readUINT8 mem (p + i) = some l.length :=
      readUINT8_of_drop mem (p + i) l.length (l ++ wireLabels ls ++ 0 :: rest) (by
        rw [h]; simp [wireLabels])
    have h2 : mem.drop (p + (i + (l.length + 1))) = wireLabels ls ++ 0 :: rest := by
      have := drop_add_of_drop_eq mem (p + i) (l.length :: l) (wireLabels ls ++ 0 :: rest) (by
        rw [h]; simp [wireLabels])
      simpa [Nat.add_assoc] using this
    cases ls with
    | nil =>
      have h3 : readUINT8 mem (p + (i + (l.length + 1))) = some 0 :=
        readUINT8_of_drop mem _ 0 rest (by rw [h2]; simp [wireLabels])
      rw [count_step mem p fuel1 i l.length 0 NumLables Length hlen.2 h0 h3]
      simp [labelBytes]
    | cons l2 ls2 =>
      have hlen2 := hl l2 (by simp)
      have h3 : readUINT8 mem (p + (i + (l.length + 1))) = some l2.length :=
        readUINT8_of_drop mem _ l2.length (l2 ++ wireLabels ls2 ++ 0 :: rest) (by
          rw [h2]; simp [wireLabels])
      have ih1 := ih fuel1 (i + (l.length + 1)) (NumLables + 1) (Length + (l.length : Int)) rest
        (by simp) (by simp at hfuel ⊢; omega)
        (fun x hx => hl x (List.mem_cons_of_mem _ hx)) h2
      have hne : l2.length ≠ 0 := by omega
      rw [count_step mem p fuel1 i l.length l2.length NumLables Length hlen.2 h0 h3]
      simp only [hne, ne_eq, not_false_eq_true, if_true, ih1]
      simp only [labelBytes, List.length_cons, Nat.cast_add, Option.some.injEq, Prod.mk.injEq]
      constructor <;> omega

theorem dotsep_length (ls : List (List Nat)) :
    ∀ i : Nat, (dotsep i ls).length + (if i = 0 then 1 else 0) =
      labelBytes ls + ls.length + (if ls = [] ∧ i = 0 then 1 else 0) := by
  induction ls with
  | nil => intro i; simp [dotsep, labelBytes]
  | cons l ls ih =>
    intro i
    have := ih (i + 1)
    by_cases hi : i = 0 <;> simp [dotsep, labelBytes, hi] at this ⊢ <;> omega

theorem wireLabels_length (ls : List (List Nat)) :
    (wireLabels ls).length = labelBytes ls + ls.length := by
  induction ls with
  | nil => simp [wireLabels, labelBytes]
  | cons l ls ih => simp [wireLabels, labelBytes, ih]; omega

/-- The result of `LabelFormatToHostname` when the counting loop gave a `Length` that is not
negative and the copy loop wrote one byte less than the pool has. -/
theorem LabelFormatToHostname_of_count_fill (mem : List Nat) (p L N : Nat) (written : List Nat)
    (hc : LabelFormatToHostname.count mem p mem.length 0 0 0 = some ((L : Int), N))
    (hf : LabelFormatToHostname.fill mem N 0 p = some written)
    (hlen : written.length + 1 = L + N) :
    LabelFormatToHostname mem p = some (some (written ++ [0])) := by
  have e0 : ¬ ((L : Int) + (N : Int) < 0) := by omega
  have e1 : ((L : Int) + (N : Int)).toNat = L + N := by omega
  have e2 : (0 : Int) ≤ (L : Int) := by omega
  have e3 : written.length ≤ L + N := by omega
  have e4 : L + N - written.length = 1 := by omega
  simp [LabelFormatToHostname, hc, hf, e0, e1, e2, e3, e4]

/-- Decoding of a wire name in label format with at least one label, found at offset `p`. -/
theorem LabelFormatToHostname_spec (mem : List Nat) (p : Nat) (ls : List (List Nat))
    (rest : List Nat) (hne : ls ≠ []) (hl : ∀ l ∈ ls, 1 ≤ l.length ∧ l.length < 128)
    (h : mem.drop p = wireLabels ls ++ 0 :: rest) :
    LabelFormatToHostname mem p = some (some (dotted ls ++ [0])) := by
  have hfuel : ls.length ≤ mem.length := by
    have h1 := congrArg List.length h
    simp [wireLabels_length] at h1
    omega
  have hc := count_spec mem p ls mem.length 0 0 0 rest hne hfuel hl (by simpa using h)
  have hf := fill_spec mem ls 0 p (0 :: rest) (fun l hx => (hl l hx).2) h
  have hlen := dotsep_length ls 0
  have hne2 : ¬ (ls = []) := hne
  simp [hne2] at hlen
  exact LabelFormatToHostname_of_count_fill mem p (labelBytes ls) ls.length (dotsep 0 ls)
    (by simpa using hc) hf (by omega)

theorem encBody_len_le (s : List Nat) : (encBody s).2 ≤ s.length := by
  induction s with
  | nil => simp [encBody]
  | cons c s ih => by_cases hc : c = DOT <;> simp [encBody, hc]; omega

theorem encBody_length (s : List Nat) : (encBody s).1.length = s.length := by
  induction s with
  | nil => simp [encBody]
  | cons c s ih => by_cases hc : c = DOT <;> simp [encBody, hc, ih]

theorem set_replicate_append (n x : Nat) (t : List Nat) :
    (List.replicate (n + 1) 0 ++ t).set n x = List.replicate n 0 ++ x :: t := by
  induction n with
  | zero => simp
  | succ n ih =>
    have : List.replicate (n + 1 + 1) 0 ++ t = 0 :: (List.replicate (n + 1) 0 ++ t) := by
      simp [List.replicate_succ]
    rw [this, List.set_cons_succ, ih]
    simp [List.replicate_succ]

theorem loop_spec (h : List Nat) (hlen : h.length ≤ 255) :
    ∀ (i len : Nat) (LabelFormat : List Nat), i ≤ h.length →
      LabelFormat = List.replicate (i + 2) 0 ++ (encBody (h.drop i)).1 ++ [0] →
      len = (encBody (h.drop i)).2 →
      HostnameToLabelFormat.loop h i len LabelFormat =
        some (List.replicate 2 0 ++ (encBody h).1 ++ [0], (encBody h).2) := by
  intro i
  induction i with
  | zero => intro len LF _ h1 h2; simp [HostnameToLabelFormat.loop, h1, h2]
  | succ i ih =>
    intro len LF hi h1 h2
    have hi2 : i < h.length := by omega
    have hd : h.drop i = h[i] :: h.drop (i + 1) := by
      simp
    have hg : h[i]? = some h[i] := by simp [hi2]
    have hs : ∀ x : Nat, LF.set (i + 2) x =
        List.replicate (i + 2) 0 ++ (x :: (encBody (h.drop (i + 1))).1) ++ [0] := by
      intro x
      rw [h1, List.append_assoc, set_replicate_append]
      simp
    have hb := encBody_len_le (h.drop (i + 1))
    simp at hb
    by_cases hc : h[i] = DOT
    · have e := ih 0 (LF.set (i + 2) len) (by omega) (by rw [hs, hd]; simp [encBody, hc, h2])
        (by rw [hd]; simp [encBody, hc])
      simp [HostnameToLabelFormat.loop, hg, hc, e]
    · have hm : (len + 1) % 256 = len + 1 := by
        apply Nat.mod_eq_of_lt; omega
      have e := ih (len + 1) (LF.set (i + 2) h[i]) (by omega)
        (by rw [hs, hd]; simp [encBody, hc]) (by rw [hd]; simp [encBody, hc, h2])
      simp [HostnameToLabelFormat.loop, hg, hc, hm, e]

theorem loop_append (h tail : List Nat) :
    ∀ (i len : Nat) (LabelFormat : List Nat), i ≤ h.length →
      HostnameToLabelFormat.loop (h ++ tail) i len LabelFormat =
        HostnameToLabelFormat.loop h i len LabelFormat := by
  intro i
  induction i with
  | zero => intro len LF _; simp [HostnameToLabelFormat.loop]
  | succ i ih =>
    intro len LF hi
    have hi2 : i < h.length := by omega
    have hg : (h ++ tail)[i]? = h[i]? := List.getElem?_append_left hi2
    simp only [HostnameToLabelFormat.loop, hg]
    cases h[i]? with
    | none => rfl
    | some c =>
      simp only []
      rw [ih _ _ (by omega), ih _ _ (by omega)]

theorem set_last_zero (t : List Nat) : (t ++ [0]).set t.length 0 = t ++ [0] := by
  induction t with
  | nil => simp
  | cons c t ih => simp [ih]

/-- The pool returned by `HostnameToLabelFormat` for a hostname of at most 255 bytes: the
length byte, the length of the first label, the bytes stored by the scan, the zero octet. -/
theorem HostnameToLabelFormat_eq (h tail : List Nat) (hlen : h.length ≤ 255) :
    HostnameToLabelFormat (some (h ++ tail)) h.length =
      some (some ((h.length + 2) % 256 :: (encBody h).2 :: (encBody h).1 ++ [0])) := by
  have hm : h.length % 256 = h.length := Nat.mod_eq_of_lt (by omega)
  have e := loop_spec h hlen h.length 0 (List.replicate (h.length + 3) 0) (le_refl _)
    (by rw [show h.length + 3 = (h.length + 2) + 1 from rfl, List.replicate_succ']; simp [encBody])
    (by simp [encBody])
  simp only [HostnameToLabelFormat, hm, loop_append h tail _ _ _ (le_refl _), e]
  have hl := encBody_length h
  have e2 : (List.replicate 2 0 ++ (encBody h).1 ++ [0]).set (h.length + 2) 0 =
      0 :: 0 :: ((encBody h).1 ++ [0]) := by
    have : List.replicate 2 0 ++ (encBody h).1 ++ [0] = 0 :: 0 :: ((encBody h).1 ++ [0]) := by
      simp [List.replicate_succ]
    rw [this, List.set_cons_succ, List.set_cons_succ, ← hl, set_last_zero]
  rw [e2]
  simp

theorem encBody_append_nodot (l s : List Nat) (hl : ∀ b ∈ l, b ≠ DOT) :
    encBody (l ++ s) = (l ++ (encBody s).1, (encBody s).2 + l.length) := by
  induction l with
  | nil => simp
  | cons c l ih =>
    have hc : c ≠ DOT := hl c (by simp)
    have := ih (fun b hb => hl b (List.mem_cons_of_mem _ hb))
    simp [encBody, hc, this]
    omega

theorem encBody_dotsep (ls : List (List Nat)) :
    ∀ i : Nat, i ≠ 0 → NoDot ls → encBody (dotsep i ls) = (wireLabels ls, 0) := by
  induction ls with
  | nil => intro i _ _; simp [dotsep, encBody, wireLabels]
  | cons l ls ih =>
    intro i hi hd
    have h1 := ih (i + 1) (by omega) (fun x hx => hd x (List.mem_cons_of_mem _ hx))
    have h2 := encBody_append_nodot l (dotsep (i + 1) ls) (hd l (by simp))
    simp [dotsep, hi, encBody, h2, h1, wireLabels]

theorem encBody_dotted (l : List Nat) (ls : List (List Nat)) (hd : NoDot (l :: ls)) :
    (encBody (dotted (l :: ls))).2 :: (encBody (dotted (l :: ls))).1 = wireLabels (l :: ls) := by
  have h1 := encBody_dotsep ls 1 (by omega) (fun x hx => hd x (List.mem_cons_of_mem _ hx))
  have h2 := encBody_append_nodot l (dotsep 1 ls) (hd l (by simp))
  simp [dotted, dotsep, h2, h1, wireLabels]

theorem dotted_length (ls : List (List Nat)) (hne : ls ≠ []) :
    (dotted ls).length + 1 = labelBytes ls + ls.length := by
  have := dotsep_length ls 0
  simpa [hne, dotted] using this

theorem dotsep_ne_zero (ls : List (List Nat)) (hn : NoNul ls) :
    ∀ i : Nat, ∀ b ∈ dotsep i ls, b ≠ 0 := by
  induction ls with
  | nil => intro i b hb; simp [dotsep] at hb
  | cons l ls ih =>
    intro i b hb
    simp only [dotsep, List.mem_append] at hb
    rcases hb with (hb | hb) | hb
    · by_cases hi : i = 0
      · simp [hi] at hb
      · simp [hi] at hb; rw [hb]; decide
    · exact hn l (by simp) b hb
    · exact ih (fun x hx => hn x (List.mem_cons_of_mem _ hx)) (i + 1) b hb

theorem cstr_append_zero (x rest : List Nat) (hx : ∀ b ∈ x, b ≠ 0) :
    cstr (x ++ 0 :: rest) = x := by
  induction x with
  | nil => simp [cstr]
  | cons c x ih =>
    have hc : c ≠ 0 := hx c (by simp)
    have := ih (fun b hb => hx b (List.mem_cons_of_mem _ hb))
    simp [cstr, hc] at this ⊢
    exact this

theorem AsciiStrnLenS_spec (h t : List Nat) (hnz : ∀ b ∈ h, b ≠ 0) :
    ∀ k n : Nat, h.length < k → AsciiStrnLenS (h ++ 0 :: t) k n = some (n + h.length) := by
  induction h with
  | nil =>
    intro k n hk
    obtain ⟨k1, rfl⟩ : ∃ k1, k = k1 + 1 := ⟨k - 1, by simp at hk; omega⟩
    simp [AsciiStrnLenS]
  | cons c h ih =>
    intro k n hk
    obtain ⟨k1, rfl⟩ : ∃ k1, k = k1 + 1 := ⟨k - 1, by simp at hk; omega⟩
    have hc : c ≠ 0 := hnz c (by simp)
    have := ih (fun b hb => hnz b (List.mem_cons_of_mem _ hb)) k1 (n + 1)
      (by simp at hk; omega)
    simp [AsciiStrnLenS, hc, this]
    omega

theorem readBytes_tail (a : Nat) (wire : List Nat) :
    readBytes (a :: wire) 1 wire.length = some wire := by
  simp [readBytes, Nat.add_comm]

theorem readBytes_all (x : List Nat) : readBytes x 0 x.length = some x := by
  simp [readBytes]

theorem CopyMem_start (x : List Nat) (k : Nat) :
    CopyMem (List.replicate (x.length + k) 0) 0 x = some (x ++ List.replicate k 0) := by
  simp [CopyMem, List.drop_replicate]

theorem CopyMem_end (x y z : List Nat) (h : y.length = z.length) :
    CopyMem (x ++ z) x.length y = some (x ++ y) := by
  simp [CopyMem, h]

/-- The result of `CreateDNSPacket` for one question whose `QName` pool is a length byte below 0x80 followed
by that many bytes: the data is the name, then `QType`, `QClass` and the four padding bytes
of the structure. -/
theorem CreateDNSPacket_single (wire : List Nat) (qt qc : Nat) (hw : wire.length < 128) :
    CreateDNSPacket [{ QName := wire.length :: wire, QType := qt, QClass := qc }] 1 =
      some { Header := { DNS_HEADER.zero with QdCount := 256 }
             DataLength := wire.length + 8
             Data := .raw (wire ++ [qt % 256, qt / 256 % 256, qc % 256, qc / 256 % 256, 0, 0, 0, 0]) } := by
  have h1 : (wire.length + 8) % 65536 = wire.length + 8 := Nat.mod_eq_of_lt (by omega)
  have h2 := CopyMem_end wire [qt % 256, qt / 256 % 256, qc % 256, qc / 256 % 256, 0, 0, 0, 0]
    (List.replicate 8 0) (by simp)
  simp only [CreateDNSPacket, CreateDNSPacket.total, CreateDNSPacket.copy, readUINT8,
    CHAR8toUINTN, List.getElem?_cons_zero, Option.bind, hw, if_true, Nat.zero_add,
    sizeof_DNS_QUESTION, sizeof_pointer, h1, readBytes_tail, Nat.mul_one,
    Nat.add_sub_cancel, CopyMem_start, HTONS]
  simp only [show (16 - 8 - 4 : Nat) = 4 from rfl, show (16 - 8 : Nat) = 8 from rfl, h1,
    CopyMem_start, List.replicate, List.cons_append, List.nil_append] at h2 ⊢
  rw [h2]

theorem wireOf_length (h : List Nat) : (wireOf h).length = h.length + 2 := by
  simp [wireOf, encBody_length]

/-- For a hostname of at most 125 bytes the request is built and handed to `SendDNSPacket`;
the rest of `GetHostByName` is `GetHostByName.finish`. -/
theorem GetHostByName_request (Udp4 : EFI_UDP4_PROTOCOL) (I : DNSCLIENT_PRIVATE_DATA)
    (h t ip : List Nat) (hnz : ∀ b ∈ h, b ≠ 0) (hlen : h.length ≤ 125) :
    GetHostByName Udp4 (some I) (some (h ++ 0 :: t)) (some ip) =
      GetHostByName.finish Udp4 ⟨(I.IdIterator + 1) % 65536⟩ Udp4.SendStatus
        (some (requestOf I.IdIterator h)) := by
  have h1 := AsciiStrnLenS_spec h t hnz 255 0 (by omega)
  have h2 := HostnameToLabelFormat_eq h (0 :: t) (by omega)
  have hwl := wireOf_length h
  have h3 : (h.length + 2) % 256 = (wireOf h).length := by
    rw [hwl]; exact Nat.mod_eq_of_lt (by omega)
  have h4 := CreateDNSPacket_single (wireOf h) (HTONS 1) (HTONS 1) (by omega)
  have h5 := readBytes_all (wireOf h ++ [0, 1, 0, 1, 0, 0, 0, 0])
  simp only [Nat.zero_add] at h1
  rw [h3] at h2
  have e1 : HTONS 1 % 256 = 0 := by decide
  have e2 : HTONS 1 / 256 % 256 = 1 := by decide
  rw [e1, e2] at h4
  have e3 : (wireOf h ++ [0, 1, 0, 1, 0, 0, 0, 0]).length = (wireOf h).length + 8 := by simp
  rw [e3] at h5
  have h2w : HostnameToLabelFormat (some (h ++ 0 :: t)) h.length =
      some (some ((wireOf h).length :: wireOf h)) := by rw [h2]; rfl
  simp only [GetHostByName, h1, Option.bind, h2w, h4, SendDNSPacket, h5, requestOf]

theorem readUINT16_of_drop (mem : List Nat) (a b0 b1 : Nat) (rest : List Nat)
    (h : mem.drop a = b0 :: b1 :: rest) : readUINT16 mem a = some (b0 + 256 * b1) := by
  have h0 := readUINT8_drop mem a 0
  have h1 := readUINT8_drop mem a 1
  simp [h, readUINT8] at h0 h1
  simp [readUINT16, h0, h1]

theorem readUINT32_of_drop (mem : List Nat) (a b0 b1 b2 b3 : Nat) (rest : List Nat)
    (h : mem.drop a = b0 :: b1 :: b2 :: b3 :: rest) :
    readUINT32 mem a = some (b0 + 256 * b1 + 65536 * b2 + 16777216 * b3) := by
  have h0 := readUINT8_drop mem a 0
  have h1 := readUINT8_drop mem a 1
  have h2 := readUINT8_drop mem a 2
  have h3 := readUINT8_drop mem a 3
  simp [h, readUINT8] at h0 h1 h2 h3
  simp [readUINT32, h0, h1, h2, h3]

theorem readBytes_of_drop (mem : List Nat) (a : Nat) (x rest : List Nat) (hx : 0 < x.length)
    (h : mem.drop a = x ++ rest) : readBytes mem a x.length = some x := by
  have hl := congrArg List.length h
  simp at hl
  have : a + x.length ≤ mem.length := by omega
  simp [readBytes, this, h]

theorem skipName_spec (x rest : List Nat) (hx : ∀ b ∈ x, b ≠ 0) :
    ∀ it : Nat, ReceiveDNSPacket.skipName (x ++ 0 :: rest) it = some (it + x.length + 1) := by
  induction x with
  | nil => intro it; simp [ReceiveDNSPacket.skipName]
  | cons c x ih =>
    intro it
    have hc : c ≠ 0 := hx c (by simp)
    have := ih (fun b hb => hx b (List.mem_cons_of_mem _ hb)) (it + 1)
    simp [ReceiveDNSPacket.skipName, hc, this]
    omega

theorem wireLabels_ne_zero (ls : List (List Nat)) (hok : LabelsOk ls) (hn : NoNul ls) :
    ∀ b ∈ wireLabels ls, b ≠ 0 := by
  induction ls with
  | nil => intro b hb; simp [wireLabels] at hb
  | cons l ls ih =>
    intro b hb
    simp only [wireLabels, List.mem_append, List.mem_cons] at hb
    rcases hb with (hb | hb) | hb
    · have := (hok l (by simp)).1
      omega
    · exact hn l (by simp) b hb
    · exact ih (fun x hx => hok x (List.mem_cons_of_mem _ hx))
        (fun x hx => hn x (List.mem_cons_of_mem _ hx)) b hb

theorem not_pointer_of_le (n : Nat) (h : n ≤ 63) : ¬ (n &&& 192 = 192) := by
  have := @Nat.and_le_left n 192
  omega

/-- A name in label format at the cursor, as the answer loop decodes it. -/
theorem answerName_labels (Buffer : List Nat) (it : Nat) (ls : List (List Nat))
    (rest : List Nat) (hne : ls ≠ []) (hok : LabelsOk ls) (hn : NoNul ls)
    (h : Buffer.drop it = wireLabels ls ++ 0 :: rest) :
    ReceiveDNSPacket.answerName Buffer it =
      some (some (dotted ls ++ [0]), it + (wireLabels ls).length + 1) := by
  obtain ⟨l, ls1, rfl⟩ : ∃ l ls1, ls = l :: ls1 := by
    cases ls with
    | nil => exact absurd rfl hne
    | cons l ls1 => exact ⟨l, ls1, rfl⟩
  have h0 : readUINT8 Buffer it = some l.length :=
    readUINT8_of_drop Buffer it l.length (l ++ wireLabels ls1 ++ 0 :: rest) (by
      rw [h]; simp [wireLabels])
  have hp := not_pointer_of_le l.length (hok l (by simp)).2
  have hd := LabelFormatToHostname_spec Buffer it (l :: ls1) rest hne
    (fun x hx => ⟨(hok x hx).1, by have := (hok x hx).2; omega⟩) h
  have hs := skipName_spec (wireLabels (l :: ls1)) rest (wireLabels_ne_zero _ hok hn) it
  simp [ReceiveDNSPacket.answerName, h0, hp, hd, h, hs]

/-- A name in label format at the cursor, as the question loop decodes it. -/
theorem questionName_labels (Buffer : List Nat) (it : Nat) (ls : List (List Nat))
    (rest : List Nat) (hne : ls ≠ []) (hok : LabelsOk ls) (hn : NoNul ls)
    (h : Buffer.drop it = wireLabels ls ++ 0 :: rest) :
    ReceiveDNSPacket.questionName Buffer it =
      some (some (dotted ls ++ [0]), it + (wireLabels ls).length + 1) := by
  obtain ⟨l, ls1, rfl⟩ : ∃ l ls1, ls = l :: ls1 := by
    cases ls with
    | nil => exact absurd rfl hne
    | cons l ls1 => exact ⟨l, ls1, rfl⟩
  have h0 : readUINT8 Buffer it = some l.length :=
    readUINT8_of_drop Buffer it l.length (l ++ wireLabels ls1 ++ 0 :: rest) (by
      rw [h]; simp [wireLabels])
  have hp := not_pointer_of_le l.length (hok l (by simp)).2
  have hd := LabelFormatToHostname_spec Buffer it (l :: ls1) rest hne
    (fun x hx => ⟨(hok x hx).1, by have := (hok x hx).2; omega⟩) h
  have hs := skipName_spec (wireLabels (l :: ls1)) rest (wireLabels_ne_zero _ hok hn) it
  simp [ReceiveDNSPacket.questionName, h0, hp, hd, h, hs]

set_option maxRecDepth 100000 in
theorem pointer_bits : ∀ q < 64, ∀ r < 256,
    (((((192 + q) <<< 8) ||| r) % 65536) ^^^ 49152) % 65536 = 256 * q + r ∧
      (192 + q) &&& 192 = 192 := by
  decide

/-- A two-byte pointer to offset `p` at the cursor, as the answer loop decodes it: the name
found at `p`, whatever the position of the pointer. -/
theorem answerName_pointer (Buffer : List Nat) (it p : Nat) (ls : List (List Nat))
    (rest rest2 : List Nat) (hp : p < 16384) (hne : ls ≠ [])
    (hl : ∀ l ∈ ls, 1 ≤ l.length ∧ l.length < 128)
    (hptr : Buffer.drop it = (192 + p / 256) :: (p % 256) :: rest)
    (h : Buffer.drop p = wireLabels ls ++ 0 :: rest2) :
    ReceiveDNSPacket.answerName Buffer it = some (some (dotted ls ++ [0]), it + 2) := by
  have h0 : readUINT8 Buffer it = some (192 + p / 256) := readUINT8_of_drop Buffer it _ _ hptr
  have h1 : readUINT8 Buffer (it + 1) = some (p % 256) := by
    have := readUINT8_drop Buffer it 1
    simpa [hptr] using this
  have hb := pointer_bits (p / 256) (by omega) (p % 256) (Nat.mod_lt _ (by omega))
  have hpp : 256 * (p / 256) + p % 256 = p := Nat.div_add_mod p 256
  rw [hpp] at hb
  have hd := LabelFormatToHostname_spec Buffer p ls rest2 hne hl h
  simp only [ReceiveDNSPacket.answerName, h0, h1, hb.2, if_true]
  simp only [show (0xC000 : Nat) = 49152 from rfl, hb.1, hd, Option.map_some']

theorem questions_one (Buffer : List Nat) (it it1 : Nat) (QName : List Nat)
    (t0 t1 c0 c1 : Nat) (rest : List Nat)
    (hn : ReceiveDNSPacket.questionName Buffer it = some (some QName, it1))
    (h : Buffer.drop it1 = t0 :: t1 :: c0 :: c1 :: rest) :
    ReceiveDNSPacket.questions Buffer 1 it =
      some (some ([{ QName := QName, QType := HTONS (t0 + 256 * t1),
                     QClass := HTONS (c0 + 256 * c1) }], it1 + 4)) := by
  have h1 := readUINT16_of_drop Buffer it1 t0 t1 _ h
  have h2 := readUINT16_of_drop Buffer (it1 + 2) c0 c1 rest
    (by have := drop_add_of_drop_eq Buffer it1 [t0, t1] (c0 :: c1 :: rest) (by rw [h]; simp)
        simpa using this)
  simp [ReceiveDNSPacket.questions, hn, h1, h2]

/-- One round of the answer loop on an address record. -/
theorem answers_A_first (Buffer : List Nat) (n it it1 : Nat) (Name : List Nat)
    (c0 c1 t0 t1 t2 t3 l0 l1 a b c d : Nat) (rest : List Nat)
    (hn : ReceiveDNSPacket.answerName Buffer it = some (some Name, it1))
    (h : Buffer.drop it1 =
      0 :: 1 :: c0 :: c1 :: t0 :: t1 :: t2 :: t3 :: l0 :: l1 :: a :: b :: c :: d :: rest) :
    ReceiveDNSPacket.answers Buffer (n + 1) it =
      (ReceiveDNSPacket.answers Buffer n (it1 + 10)).map (Option.map (fun r =>
        ({ Name := Name, Type_ := 1, Class := HTONS (c0 + 256 * c1),
           TTL := HTONS (t0 + 256 * t1 + 65536 * t2 + 16777216 * t3),
           RdLength := HTONS (l0 + 256 * l1), RData := some [a, b, c, d] } :: r.1, r.2))) := by
  have h1 := readUINT16_of_drop Buffer it1 0 1 _ h
  have h2 := readUINT16_of_drop Buffer (it1 + 2) c0 c1 _
    (by have := drop_add_of_drop_eq Buffer it1 [0, 1] _ (by rw [h]; rfl)
        simpa using this)
  have h3 := readUINT32_of_drop Buffer (it1 + 4) t0 t1 t2 t3 _
    (by have := drop_add_of_drop_eq Buffer it1 [0, 1, c0, c1] _ (by rw [h]; rfl)
        simpa using this)
  have h4 := readUINT16_of_drop Buffer (it1 + 8) l0 l1 _
    (by have := drop_add_of_drop_eq Buffer it1 [0, 1, c0, c1, t0, t1, t2, t3] _
          (by rw [h]; rfl)
        simpa using this)
  have h5 := readBytes_of_drop Buffer (it1 + 10) [a, b, c, d] rest (by simp)
    (by have := drop_add_of_drop_eq Buffer it1 [0, 1, c0, c1, t0, t1, t2, t3, l0, l1] _
          (by rw [h]; rfl)
        simpa using this)
  have e : HTONS (0 + 256 * 1) = 1 := by decide
  simp only [List.length_cons, List.length_nil] at h5
  simp only [ReceiveDNSPacket.answers, hn, h1, h2, h3, h4, e, if_true, h5, Option.map_some']

/-- What `GetHostByName.finish` returns when the request was sent and a datagram was received
and decoded. -/
theorem finish_of_decode (Udp4 : EFI_UDP4_PROTOCOL) (I1 : DNSCLIENT_PRIVATE_DATA)
    (Sent : Option (List Nat)) (d : List Nat) (R : DNS_PACKET)
    (hs : EFI_ERROR Udp4.SendStatus = false) (hr : Udp4.Received = .ok d)
    (hd : ReceiveDNSPacket.decode d = some (some R)) :
    GetHostByName.finish Udp4 I1 Udp4.SendStatus Sent =
      if R.Header.AnCount = 0 then some ⟨.EFI_ABORTED, some [0, 0, 0, 0], some I1, Sent⟩
      else
        match R.Answers with
        | [] => none
        | Answer :: _ =>
          if Answer.Type_ = 1 then
            match Answer.RData.bind (fun rd => readBytes rd 0 4) with
            | none => none
            | some Ip => some ⟨.EFI_SUCCESS, some Ip, some I1, Sent⟩
          else some ⟨.EFI_SUCCESS, some [0, 0, 0, 0], some I1, Sent⟩ := by
  have e : EFI_ERROR .EFI_SUCCESS = false := rfl
  simp only [GetHostByName.finish, hs, ReceiveDNSPacket, hr, hd, e]
  rfl

/-- Decoding of `addressResponse`: one answer of type 1 whose `RData` is the address. The
answer name is in label format or is the pointer `C0 0C` to the question name. -/
theorem decode_addressResponse (i0 i1 f0 f1 n0 n1 r0 r1 : Nat) (qls : List (List Nat))
    (qt0 qt1 qc0 qc1 : Nat) (aname : List Nat) (c0 c1 t0 t1 t2 t3 a b c d : Nat)
    (rest : List Nat) (hq : qls ≠ []) (hok : LabelsOk qls) (hnul : NoNul qls)
    (ha : aname = [192, 12] ∨
      ∃ als, als ≠ [] ∧ LabelsOk als ∧ NoNul als ∧ aname = wireName als) :
    ∃ R A, ReceiveDNSPacket.decode (addressResponse i0 i1 f0 f1 n0 n1 r0 r1 (wireName qls)
        qt0 qt1 qc0 qc1 aname c0 c1 t0 t1 t2 t3 a b c d rest) = some (some R) ∧
      R.Header.AnCount = 1 ∧ R.Header.QdCount = 1 ∧ R.Questions.length = 1 ∧
      R.Answers = [A] ∧ A.Type_ = 1 ∧ A.RData = some [a, b, c, d] := by
  let tailA : List Nat :=
    [0, 1, c0, c1, t0, t1, t2, t3, 0, 4, a, b, c, d] ++ (rest ++ List.replicate 12 0)
  let Buffer : List Nat :=
    [i0, i1, f0, f1, 0, 1, 0, 1, n0, n1, r0, r1] ++ (wireLabels qls ++ 0 :: ([qt0, qt1, qc0, qc1] ++
      (aname ++ tailA)))
  have hB : addressResponse i0 i1 f0 f1 n0 n1 r0 r1 (wireName qls)
      qt0 qt1 qc0 qc1 aname c0 c1 t0 t1 t2 t3 a b c d rest ++
        List.replicate sizeof_DNS_HEADER 0 = Buffer := by
    simp [addressResponse, Buffer, tailA, wireName, sizeof_DNS_HEADER]
  have hd12 : Buffer.drop 12 = wireLabels qls ++ 0 :: ([qt0, qt1, qc0, qc1] ++ (aname ++ tailA)) :=
    rfl
  have hqn := questionName_labels Buffer 12 qls _ hq hok hnul hd12
  have hd1 : Buffer.drop (12 + (wireLabels qls).length + 1) =
      qt0 :: qt1 :: qc0 :: qc1 :: (aname ++ tailA) := by
    have := drop_add_of_drop_eq Buffer 12 (wireLabels qls ++ [0])
      (qt0 :: qt1 :: qc0 :: qc1 :: (aname ++ tailA)) (by rw [hd12]; simp)
    simpa [Nat.add_assoc] using this
  have hqs := questions_one Buffer 12 _ _ qt0 qt1 qc0 qc1 _ hqn hd1
  have hd2 : Buffer.drop (12 + (wireLabels qls).length + 1 + 4) = aname ++ tailA := by
    have := drop_add_of_drop_eq Buffer _ [qt0, qt1, qc0, qc1] (aname ++ tailA) (by rw [hd1]; rfl)
    simpa using this
  have han : ∃ Name it1, ReceiveDNSPacket.answerName Buffer
      (12 + (wireLabels qls).length + 1 + 4) = some (some Name, it1) ∧
        Buffer.drop it1 = tailA := by
    rcases ha with rfl | ⟨als, hane, haok, hanul, rfl⟩
    · refine ⟨_, _, answerName_pointer Buffer _ 12 qls tailA _ (by decide) hq
        (fun x hx => ⟨(hok x hx).1, by have := (hok x hx).2; omega⟩) (by rw [hd2]; rfl) hd12, ?_⟩
      have := drop_add_of_drop_eq Buffer _ [192, 12] _ hd2
      simpa using this
    · refine ⟨_, _, answerName_labels Buffer _ als tailA hane haok hanul
        (by rw [hd2]; simp [wireName]), ?_⟩
      have := drop_add_of_drop_eq Buffer _ (wireLabels als ++ [0]) tailA
        (by rw [hd2]; simp [wireName])
      simpa [Nat.add_assoc] using this
  obtain ⟨Name, it1, hname, hd3⟩ := han
  have has := answers_A_first Buffer 0 _ it1 Name c0 c1 t0 t1 t2 t3 0 4 a b c d _ hname hd3
  have e1 : HTONS (0 + 256 * 1) = 1 := by decide
  have hdec : ReceiveDNSPacket.decode (addressResponse i0 i1 f0 f1 n0 n1 r0 r1 (wireName qls)
      qt0 qt1 qc0 qc1 aname c0 c1 t0 t1 t2 t3 a b c d rest) =
      some (some
           { Header :=
               { Id := HTONS (i0 + 256 * i1), Rd := f0 % 2, Tc := f0 / 2 % 2, Aa := f0 / 4 % 2,
                 Opcode := f0 / 8 % 16, Qr := f0 / 128 % 2, RCode := f1 % 16, Cd := f1 / 16 % 2,
                 Ad := f1 / 32 % 2, Z := f1 / 64 % 2, Ra := f1 / 128 % 2, QdCount := 1,
                 AnCount := 1, NsCount := HTONS (n0 + 256 * n1),
                 ArCount := HTONS (r0 + 256 * r1) }
             DataLength := 0
             Data := .records
               [{ QName := dotted qls ++ [0], QType := HTONS (qt0 + 256 * qt1),
                  QClass := HTONS (qc0 + 256 * qc1) }]
               [{ Name := Name, Type_ := 1, Class := HTONS (c0 + 256 * c1),
                  TTL := HTONS (t0 + 256 * t1 + 65536 * t2 + 16777216 * t3),
                  RdLength := HTONS (0 + 256 * 4), RData := some [a, b, c, d] }] }) := by
    simp only [ReceiveDNSPacket.decode, hB]
    simp only [Buffer, List.cons_append, DNS_HEADER.ofBytes, e1, sizeof_DNS_HEADER]
    simp only [Buffer, List.cons_append] at hqs has
    rw [hqs]
    simp only []
    rw [has]
    simp only [ReceiveDNSPacket.answers, Option.map_some']
  exact ⟨_, _, hdec, rfl, rfl, rfl, rfl, rfl, rfl⟩

/-- The result of `GetHostByName` on a response with one question and one address record, for a hostname
of at most 125 bytes: success, the address of the record, the id counter moved on by one, and
the request that was sent. Nothing of the response but its answer is looked at. -/
theorem GetHostByName_addressResponse (I : DNSCLIENT_PRIVATE_DATA) (h t ip : List Nat)
    (i0 i1 f0 f1 n0 n1 r0 r1 : Nat) (qls : List (List Nat))
    (qt0 qt1 qc0 qc1 : Nat) (aname : List Nat) (c0 c1 t0 t1 t2 t3 a b c d : Nat)
    (rest : List Nat) (hnz : ∀ x ∈ h, x ≠ 0) (hlen : h.length ≤ 125)
    (hq : qls ≠ []) (hok : LabelsOk qls) (hnul : NoNul qls)
    (ha : aname = [192, 12] ∨
      ∃ als, als ≠ [] ∧ LabelsOk als ∧ NoNul als ∧ aname = wireName als) :
    GetHostByName ⟨.EFI_SUCCESS, .ok (addressResponse i0 i1 f0 f1 n0 n1 r0 r1 (wireName qls)
        qt0 qt1 qc0 qc1 aname c0 c1 t0 t1 t2 t3 a b c d rest)⟩
      (some I) (some (h ++ 0 :: t)) (some ip) =
    some ⟨.EFI_SUCCESS, some [a, b, c, d], some ⟨(I.IdIterator + 1) % 65536⟩,
      some (requestOf I.IdIterator h)⟩ := by
  obtain ⟨R, A, hdec, han, _, _, hans, hty, hrd⟩ :=
    decode_addressResponse i0 i1 f0 f1 n0 n1 r0 r1 qls qt0 qt1 qc0 qc1 aname
      c0 c1 t0 t1 t2 t3 a b c d rest hq hok hnul ha
  rw [GetHostByName_request _ I h t ip hnz hlen]
  rw [finish_of_decode ⟨.EFI_SUCCESS, .ok (addressResponse i0 i1 f0 f1 n0 n1 r0 r1 (wireName qls)
        qt0 qt1 qc0 qc1 aname c0 c1 t0 t1 t2 t3 a b c d rest)⟩ _ _ _ R rfl rfl hdec]
  simp [han, hans, hty, hrd, readBytes]

/-- The result of `GetHostByName` for a hostname of at most 125 bytes when the request was sent and the
datagram `d` was received and decoded to `R`. -/
theorem GetHostByName_decoded (I : DNSCLIENT_PRIVATE_DATA) (h t ip d : List Nat) (R : DNS_PACKET)
    (hnz : ∀ x ∈ h, x ≠ 0) (hlen : h.length ≤ 125)
    (hd : ReceiveDNSPacket.decode d = some (some R)) :
    GetHostByName ⟨.EFI_SUCCESS, .ok d⟩ (some I) (some (h ++ 0 :: t)) (some ip) =
      if R.Header.AnCount = 0 then
        some ⟨.EFI_ABORTED, some [0, 0, 0, 0], some ⟨(I.IdIterator + 1) % 65536⟩,
          some (requestOf I.IdIterator h)⟩
      else
        match R.Answers with
        | [] => none
        | Answer :: _ =>
          if Answer.Type_ = 1 then
            match Answer.RData.bind (fun rd => readBytes rd 0 4) with
            | none => none
            | some Ip => some ⟨.EFI_SUCCESS, some Ip, some ⟨(I.IdIterator + 1) % 65536⟩,
                some (requestOf I.IdIterator h)⟩
          else some ⟨.EFI_SUCCESS, some [0, 0, 0, 0], some ⟨(I.IdIterator + 1) % 65536⟩,
            some (requestOf I.IdIterator h)⟩ := by
  rw [GetHostByName_request _ I h t ip hnz hlen]
  exact finish_of_decode ⟨.EFI_SUCCESS, .ok d⟩ _ _ d R rfl rfl hd

theorem questions_length (Buffer : List Nat) :
    ∀ (n it : Nat) (r : List DNS_QUESTION × Nat),
      ReceiveDNSPacket.questions Buffer n it = some (some r) → r.1.length = n := by
  intro n
  induction n with
  | zero => intro it r h; simp [ReceiveDNSPacket.questions] at h; rw [← h]; rfl
  | succ n ih =>
    intro it r h
    simp only [ReceiveDNSPacket.questions] at h
    cases hq : ReceiveDNSPacket.questionName Buffer it with
    | none => simp [hq] at h
    | some qn =>
      obtain ⟨QName, it1⟩ := qn
      cases QName with
      | none => simp [hq] at h
      | some QName =>
        simp only [hq] at h
        cases ht : readUINT16 Buffer it1 with
        | none => simp [ht] at h
        | some t =>
          cases hc : readUINT16 Buffer (it1 + 2) with
          | none => simp [ht, hc] at h
          | some c =>
            cases hrest : ReceiveDNSPacket.questions Buffer n (it1 + 4) with
            | none => simp [ht, hc, hrest] at h
            | some r2 =>
              cases r2 with
              | none => simp [ht, hc, hrest] at h
              | some r2 =>
                simp [ht, hc, hrest] at h
                rw [← h]
                simp [ih _ r2 hrest]

/-- Every answer list the loop returns has `n` answers, and each answer of type 1 in it has
an `A_RECORD` of four bytes, each other answer a NULL `RData`. -/
theorem answers_shape (Buffer : List Nat) :
    ∀ (n it : Nat) (r : List DNS_ANSWER × Nat),
      ReceiveDNSPacket.answers Buffer n it = some (some r) →
        r.1.length = n ∧
        ∀ A ∈ r.1, (A.Type_ = 1 → ∃ x, A.RData = some x ∧ x.length = 4) ∧
          (A.Type_ ≠ 1 → A.RData = none) := by
  intro n
  induction n with
  | zero =>
    intro it r h
    simp [ReceiveDNSPacket.answers] at h
    rw [← h]; simp
  | succ n ih =>
    intro it r h
    simp only [ReceiveDNSPacket.answers] at h
    cases hq : ReceiveDNSPacket.answerName Buffer it with
    | none => simp [hq] at h
    | some qn =>
      obtain ⟨Name, it1⟩ := qn
      cases Name with
      | none => simp [hq] at h
      | some Name =>
        simp only [hq] at h
        cases ht : readUINT16 Buffer it1 with
        | none => simp [ht] at h
        | some t =>
          cases hc : readUINT16 Buffer (it1 + 2) with
          | none => simp [ht, hc] at h
          | some c =>
            cases httl : readUINT32 Buffer (it1 + 4) with
            | none => simp [ht, hc, httl] at h
            | some ttl =>
              cases hl : readUINT16 Buffer (it1 + 8) with
              | none => simp [ht, hc, httl, hl] at h
              | some l =>
                simp only [ht, hc, httl, hl] at h
                by_cases hty : HTONS t = 1
                · simp only [hty, if_true] at h
                  cases hb : readBytes Buffer (it1 + 10) 4 with
                  | none => simp [hb] at h
                  | some x =>
                    have hx : x.length = 4 := by
                      simp only [readBytes] at hb
                      split at hb
                      · simp at hb; rw [← hb]; simp; omega
                      · exact absurd hb (by simp)
                    cases hrest : ReceiveDNSPacket.answers Buffer n (it1 + 10) with
                    | none => simp [hb, hrest] at h
                    | some r2 =>
                      cases r2 with
                      | none => simp [hb, hrest] at h
                      | some r2 =>
                        simp [hb, hrest] at h
                        obtain ⟨ih1, ih2⟩ := ih _ r2 hrest
                        rw [← h]
                        refine ⟨by simp [ih1], ?_⟩
                        intro A hA
                        simp only [List.mem_cons] at hA
                        rcases hA with rfl | hA
                        · simp [hx]
                        · exact ih2 A hA
                · simp only [hty, if_false] at h
                  cases hrest : ReceiveDNSPacket.answers Buffer n (it1 + 10) with
                  | none => simp [hrest] at h
                  | some r2 =>
                    cases r2 with
                    | none => simp [hrest] at h
                    | some r2 =>
                      simp [hrest] at h
                      obtain ⟨ih1, ih2⟩ := ih _ r2 hrest
                      rw [← h]
                      refine ⟨by simp [ih1], ?_⟩
                      intro A hA
                      simp only [List.mem_cons] at hA
                      rcases hA with rfl | hA
                      · simp [hty]
                      · exact ih2 A hA

theorem decode_some (d : List Nat) (P : DNS_PACKET)
    (hd : ReceiveDNSPacket.decode d = some (some P)) :
    ∃ raw qs it as it2,
      DNS_HEADER.ofBytes (d ++ List.replicate sizeof_DNS_HEADER 0) = some raw ∧
      ReceiveDNSPacket.questions (d ++ List.replicate sizeof_DNS_HEADER 0) (HTONS raw.QdCount)
        sizeof_DNS_HEADER = some (some (qs, it)) ∧
      ReceiveDNSPacket.answers (d ++ List.replicate sizeof_DNS_HEADER 0) (HTONS raw.AnCount) it =
        some (some (as, it2)) ∧
      P.Header.QdCount = HTONS raw.QdCount ∧ P.Header.AnCount = HTONS raw.AnCount ∧
      P.Header.Id = HTONS raw.Id ∧
      P.Questions = qs ∧ P.Answers = as := by
  unfold ReceiveDNSPacket.decode at hd
  generalize d ++ List.replicate sizeof_DNS_HEADER 0 = Buffer at hd ⊢
  cases hraw : DNS_HEADER.ofBytes Buffer with
  | none => simp [hraw] at hd
  | some raw =>
    cases hq : ReceiveDNSPacket.questions Buffer (HTONS raw.QdCount) sizeof_DNS_HEADER with
    | none => simp [hraw, hq] at hd
    | some rq =>
      cases rq with
      | none => simp [hraw, hq] at hd
      | some rq =>
        obtain ⟨qs, it⟩ := rq
        cases ha : ReceiveDNSPacket.answers Buffer (HTONS raw.AnCount) it with
        | none => simp [hraw, hq, ha] at hd
        | some ra =>
          cases ra with
          | none => simp [hraw, hq, ha] at hd
          | some ra =>
            obtain ⟨as, it2⟩ := ra
            simp only [hraw, hq, ha, Option.some.injEq] at hd
            refine ⟨raw, qs, it, as, it2, rfl, hq, ha, ?_⟩
            rw [← hd]
            simp [DNS_PACKET.Questions, DNS_PACKET.Answers]

theorem getD_append_zeros (d : List Nat) (n : Nat) :
    ∀ i : Nat, (d ++ List.replicate n 0).getD i 0 = d.getD i 0 := by
  induction d with
  | nil =>
    intro i
    simp [List.getD, List.getElem?_replicate]
    split <;> simp
  | cons c d ih =>
    intro i
    cases i with
    | zero => simp
    | succ i => simpa using ih i

theorem ofBytes_counts (mem : List Nat) (raw : DNS_HEADER)
    (h : DNS_HEADER.ofBytes mem = some raw) :
    raw.Id = mem.getD 0 0 + 256 * mem.getD 1 0 ∧
    raw.QdCount = mem.getD 4 0 + 256 * mem.getD 5 0 ∧
    raw.AnCount = mem.getD 6 0 + 256 * mem.getD 7 0 := by
  match mem, h with
  | b0 :: b1 :: b2 :: b3 :: b4 :: b5 :: b6 :: b7 :: b8 :: b9 :: b10 :: b11 :: _, h =>
    simp only [DNS_HEADER.ofBytes, Option.some.injEq] at h
    rw [← h]
    simp

theorem getD_lt (d : List Nat) (hb : ∀ b ∈ d, b < 256) (i : Nat) : d.getD i 0 < 256 := by
  by_cases hi : i < d.length
  · have : d.getD i 0 = d[i] := by simp [List.getD, hi]
    rw [this]
    exact hb _ (List.getElem_mem _)
  · have h : d[i]? = none := List.getElem?_eq_none (by omega)
    have : d.getD i 0 = 0 := by simp [List.getD, h]
    omega

theorem HTONS_bytes (b0 b1 : Nat) (h0 : b0 < 256) (h1 : b1 < 256) :
    HTONS (b0 + 256 * b1) = 256 * b0 + b1 := by
  simp only [HTONS]
  omega

/-- A decoded response with a first answer has a non-zero ANCOUNT, and a first answer of
type 1 has an `A_RECORD` of four bytes. -/
theorem answers_ne_zero (d : List Nat) (R : DNS_PACKET) (A : DNS_ANSWER) (tl : List DNS_ANSWER)
    (hd : ReceiveDNSPacket.decode d = some (some R)) (hA : R.Answers = A :: tl) :
    R.Header.AnCount ≠ 0 ∧ (A.Type_ = 1 → ∃ x, A.RData = some x ∧ x.length = 4) := by
  obtain ⟨raw, qs, it, as, it2, _, _, ha, _, e2, _, _, e5⟩ := decode_some d R hd
  obtain ⟨l2, sh⟩ := answers_shape _ _ _ _ ha
  simp only at l2 sh
  rw [← e5, hA] at l2 sh
  refine ⟨by rw [e2, ← l2]; simp, (sh A (by simp)).1⟩

/-- The bound of 125 bytes in `GetHostByName_request` is the range of the embedding: from 126
bytes on `QName[0]`, which is the length plus 2, is a negative `CHAR8`, and
`CreateDNSPacket` has no defined result for a question whose `QName[0]` is 0x80 or more. -/
theorem CreateDNSPacket_negative_length (b qt qc : Nat) (name : List Nat) (hb : 128 ≤ b) :
    CreateDNSPacket [{ QName := b :: name, QType := qt, QClass := qc }] 1 = none := by
  have h : ¬ b < 128 := by omega
  simp [CreateDNSPacket, CreateDNSPacket.total, readUINT8, CHAR8toUINTN, h]

/-- The `do ... while` loop of `LabelFormatToHostname` takes a first label before it looks
for the zero octet: a root name (the single octet 0) that is followed by a non-zero byte is
decoded together with what follows it. Here the root name is followed by `01 01 00 01`. -/
theorem LabelFormatToHostname_root_followed :
    LabelFormatToHostname [0, 1, 1, 0, 1] 0 = some (some [46, 1, 0]) := by
  decide

/-- A hostname has at least one segment. -/
theorem splitDots_ne_nil (h : List Nat) : splitDots h ≠ [] := by
  induction h with
  | nil => simp [splitDots]
  | cons c s ih =>
    by_cases hc : c = DOT
    · simp [splitDots, hc]
    · cases hs : splitDots s with
      | nil => exact absurd hs ih
      | cons l ls => simp [splitDots, hc, hs]

/-- The scan of `HostnameToLabelFormat` stores the segments of the hostname, each behind its
length. -/
theorem encBody_splitDots (h : List Nat) :
    (encBody h).2 :: (encBody h).1 = wireLabels (splitDots h) := by
  induction h with
  | nil => simp [encBody, splitDots, wireLabels]
  | cons c s ih =>
    by_cases hc : c = DOT
    · simp [encBody, splitDots, hc, wireLabels, ← ih]
    · cases hs : splitDots s with
      | nil => exact absurd hs (splitDots_ne_nil s)
      | cons l ls =>
        rw [hs] at ih
        simp only [wireLabels, List.cons_append, List.cons.injEq] at ih
        simp [encBody, splitDots, hc, hs, wireLabels, ih.1, ih.2]

/-- Behind the first label the index of a label does not matter to `dotsep`. -/
theorem dotsep_pos (ls : List (List Nat)) :
    ∀ i j : Nat, i ≠ 0 → j ≠ 0 → dotsep i ls = dotsep j ls := by
  induction ls with
  | nil => intro i j _ _; simp [dotsep]
  | cons l ls ih =>
    intro i j hi hj
    simp [dotsep, hi, hj, ih (i + 1) (j + 1) (by omega) (by omega)]

/-- The segments of a hostname joined by the delimiter give the hostname back. -/
theorem dotted_splitDots (h : List Nat) : dotted (splitDots h) = h := by
  induction h with
  | nil => simp [dotted, dotsep, splitDots]
  | cons c s ih =>
    by_cases hc : c = DOT
    · cases hs : splitDots s with
      | nil => exact absurd hs (splitDots_ne_nil s)
      | cons l ls =>
        rw [hs] at ih
        simp only [dotted, dotsep] at ih
        simp [splitDots, hc, hs, dotted, dotsep]
        rw [dotsep_pos ls 2 1 (by omega) (by omega)]
        simpa using ih
    · cases hs : splitDots s with
      | nil => exact absurd hs (splitDots_ne_nil s)
      | cons l ls =>
        rw [hs] at ih
        simp only [dotted, dotsep] at ih
        simp [splitDots, hc, hs, dotted, dotsep]
        simpa using ih

/-- No segment of a hostname holds the delimiter. -/
theorem noDot_splitDots (h : List Nat) : NoDot (splitDots h) := by
  induction h with
  | nil => intro l hl; simp [splitDots] at hl; subst hl; simp
  | cons c s ih =>
    by_cases hc : c = DOT
    · intro l hl
      simp [splitDots, hc] at hl
      rcases hl with rfl | hl
      · simp
      · exact ih l hl
    · cases hs : splitDots s with
      | nil => exact absurd hs (splitDots_ne_nil s)
      | cons l0 ls =>
        rw [hs] at ih
        intro l hl
        simp [splitDots, hc, hs] at hl
        rcases hl with rfl | hl
        · intro b hb
          simp at hb
          rcases hb with rfl | hb
          · exact hc
          · exact ih l0 (by simp) b hb
        · exact ih l (by simp [hl])

/-- The wire name of the segments of a hostname is two bytes longer than the hostname. -/
theorem wireName_splitDots_length (h : List Nat) :
    (wireName (splitDots h)).length = h.length + 2 := by
  have := congrArg List.length (encBody_splitDots h)
  simp [encBody_length] at this
  simp [wireName, ← this]

/-- Whatever the receive path gives, the result of `GetHostByName.finish` records the buffer
that was sent and the private data it was given. -/
theorem finish_some (Udp4 : EFI_UDP4_PROTOCOL) (I1 : DNSCLIENT_PRIVATE_DATA)
    (s : EFI_STATUS) (Sent : Option (List Nat)) (r : GetHostByNameResult)
    (h : GetHostByName.finish Udp4 I1 s Sent = some r) :
    r.Transmitted = Sent ∧ r.Instance = some I1 := by
  unfold GetHostByName.finish at h
  simp only at h
  split at h
  · simp at h; rw [← h]; simp
  · split at h
    · exact absurd h (by simp)
    · split at h
      · simp at h; rw [← h]; simp
      · split at h
        · exact absurd h (by simp)
        · split at h
          · simp at h; rw [← h]; simp
          · split at h
            · exact absurd h (by simp)
            · split at h
              · split at h
                · exact absurd h (by simp)
                · simp at h; rw [← h]; simp
              · simp at h; rw [← h]; simp

/-- The two bytes that `HTONS` of a 16-bit value leaves in memory: high byte first. -/
theorem id_bytes (id : Nat) (h : id < 65536) :
    HTONS id % 256 = id / 256 ∧ HTONS id / 256 % 256 = id % 256 := by
  have hb : id / 256 < 256 := by omega
  have ha : id % 256 < 256 := Nat.mod_lt _ (by omega)
  simp only [HTONS, Nat.mod_eq_of_lt hb]
  generalize id % 256 = a at ha ⊢
  generalize id / 256 = b at hb ⊢
  omega

/-- Every result of `GetHostByName` on non-NULL arguments comes with a request that was
built: the counter moved on by one, and the bytes 0 and 1 of the request are the new
counter, high byte first. -/
theorem GetHostByName_some (Udp4 : EFI_UDP4_PROTOCOL) (I : DNSCLIENT_PRIVATE_DATA)
    (h ip : List Nat) (r : GetHostByNameResult)
    (hr : GetHostByName Udp4 (some I) (some h) (some ip) = some r) :
    r.Instance = some ⟨(I.IdIterator + 1) % 65536⟩ ∧
    ∃ body, r.Transmitted =
      some ((I.IdIterator + 1) % 65536 / 256 :: (I.IdIterator + 1) % 65536 % 256 :: body) := by
  have hid := id_bytes ((I.IdIterator + 1) % 65536) (Nat.mod_lt _ (by omega))
  simp only [GetHostByName] at hr
  split at hr
  · rename_i QName _
    split at hr
    · exact absurd hr (by simp)
    · rename_i Created _
      simp only [SendDNSPacket] at hr
      cases hD : Created.Data with
      | records qs as => simp [hD] at hr
      | raw Data =>
        simp only [hD] at hr
        cases hb : readBytes Data 0 Created.DataLength with
        | none => simp [hb] at hr
        | some bytes =>
          simp only [hb] at hr
          obtain ⟨h1, h2⟩ := finish_some _ _ _ _ _ hr
          refine ⟨h2, ?_⟩
          rw [h1]
          simp only [DNS_HEADER.toBytes, hid.1, hid.2]
          exact ⟨_, rfl⟩
  · exact absurd hr (by simp)

/-- The requests of successive calls, starting with the counter at `c`: there is one per call,
the counter ends at `c` plus the number of calls, and request number `k` (from 0) starts
with the two bytes of `c + k + 1`, high byte first. -/
theorem runQueries_ids :
    ∀ (calls : List (EFI_UDP4_PROTOCOL × List Nat)) (c : Nat) (sents : List (List Nat))
      (I1 : Option DNSCLIENT_PRIVATE_DATA),
      runQueries calls (some ⟨c⟩) = some (sents, I1) →
      sents.length = calls.length ∧
      (calls ≠ [] → I1 = some ⟨(c + calls.length) % 65536⟩) ∧
      ∀ k s, sents[k]? = some s →
        s.take 2 = [(c + k + 1) % 65536 / 256, (c + k + 1) % 65536 % 256] := by
  intro calls
  induction calls with
  | nil =>
    intro c sents I1 h
    simp [runQueries] at h
    obtain ⟨h1, _⟩ := h
    subst h1
    simp
  | cons call rest ih =>
    intro c sents I1 h
    obtain ⟨Udp4, Hostname⟩ := call
    simp only [runQueries] at h
    cases hg : GetHostByName Udp4 (some ⟨c⟩) (some Hostname) (some [0, 0, 0, 0]) with
    | none => simp [hg] at h
    | some r =>
      simp only [hg] at h
      obtain ⟨hI, body, hT⟩ := GetHostByName_some Udp4 ⟨c⟩ Hostname _ r hg
      simp only [hT, hI] at h
      cases hrest : runQueries rest (some ⟨(c + 1) % 65536⟩) with
      | none => simp [hrest] at h
      | some q =>
        obtain ⟨sents1, I2⟩ := q
        simp [hrest] at h
        obtain ⟨hs, hi⟩ := h
        subst hs hi
        obtain ⟨l1, l2, l3⟩ := ih ((c + 1) % 65536) sents1 I2 hrest
        refine ⟨by simp [l1], ?_, ?_⟩
        · intro _
          cases rest with
          | nil =>
            simp [runQueries] at hrest
            rw [← hrest.2]
            simp
          | cons x xs =>
            rw [l2 (by simp)]
            simp
            omega
        · intro k s hk
          cases k with
          | zero =>
            simp at hk
            rw [← hk]
            simp
          | succ k =>
            simp at hk
            rw [l3 k s hk]
            have e : ((c + 1) % 65536 + k + 1) % 65536 = (c + (k + 1) + 1) % 65536 := by omega
            rw [e]

/-- The bytes of `requestOf`: the id, the flag bytes `01 20`, QDCOUNT 1, three zero counts, the
wire name, type 1, class 1 and four zero bytes. -/
theorem requestOf_bytes (c : Nat) (h : List Nat) :
    requestOf c h =
      [(c + 1) % 65536 / 256, (c + 1) % 65536 % 256, 1, 32, 0, 1, 0, 0, 0, 0, 0, 0] ++
        (wireOf h ++ [0, 1, 0, 1, 0, 0, 0, 0]) := by
  have hid := id_bytes ((c + 1) % 65536) (Nat.mod_lt _ (by omega))
  simp [requestOf, DNS_HEADER.toBytes, DNS_HEADER.zero, hid.1, hid.2]

/-- The header of a decoded packet: the five 16-bit fields of the raw header, each
byte-swapped. -/
theorem decode_header (d : List Nat) (P : DNS_PACKET)
    (hd : ReceiveDNSPacket.decode d = some (some P)) :
    ∃ raw, DNS_HEADER.ofBytes (d ++ List.replicate sizeof_DNS_HEADER 0) = some raw ∧
      P.Header.Id = HTONS raw.Id ∧ P.Header.QdCount = HTONS raw.QdCount ∧
      P.Header.AnCount = HTONS raw.AnCount ∧ P.Header.NsCount = HTONS raw.NsCount ∧
      P.Header.ArCount = HTONS raw.ArCount := by
  unfold ReceiveDNSPacket.decode at hd
  generalize d ++ List.replicate sizeof_DNS_HEADER 0 = Buffer at hd ⊢
  cases hraw : DNS_HEADER.ofBytes Buffer with
  | none => simp [hraw] at hd
  | some raw =>
    cases hq : ReceiveDNSPacket.questions Buffer (HTONS raw.QdCount) sizeof_DNS_HEADER with
    | none => simp [hraw, hq] at hd
    | some rq =>
      cases rq with
      | none => simp [hraw, hq] at hd
      | some rq =>
        obtain ⟨qs, it⟩ := rq
        cases ha : ReceiveDNSPacket.answers Buffer (HTONS raw.AnCount) it with
        | none => simp [hraw, hq, ha] at hd
        | some ra =>
          cases ra with
          | none => simp [hraw, hq, ha] at hd
          | some ra =>
            obtain ⟨as, it2⟩ := ra
            simp only [hraw, hq, ha, Option.some.injEq] at hd
            refine ⟨raw, rfl, ?_⟩
            rw [← hd]
            simp

/-- The 16-bit fields of the raw header in terms of the bytes of the buffer. -/
theorem ofBytes_fields (mem : List Nat) (raw : DNS_HEADER)
    (h : DNS_HEADER.ofBytes mem = some raw) :
    raw.Id = mem.getD 0 0 + 256 * mem.getD 1 0 ∧
    raw.QdCount = mem.getD 4 0 + 256 * mem.getD 5 0 ∧
    raw.AnCount = mem.getD 6 0 + 256 * mem.getD 7 0 ∧
    raw.NsCount = mem.getD 8 0 + 256 * mem.getD 9 0 ∧
    raw.ArCount = mem.getD 10 0 + 256 * mem.getD 11 0 := by
  match mem, h with
  | b0 :: b1 :: b2 :: b3 :: b4 :: b5 :: b6 :: b7 :: b8 :: b9 :: b10 :: b11 :: _, h =>
    simp only [DNS_HEADER.ofBytes, Option.some.injEq] at h
    rw [← h]
    simp

/-- A buffer of 12 bytes or more holds a header. -/
theorem ofBytes_some (mem : List Nat) (h : 12 ≤ mem.length) :
    ∃ raw, DNS_HEADER.ofBytes mem = some raw := by
  cases hr : DNS_HEADER.ofBytes mem with
  | some raw => exact ⟨raw, rfl⟩
  | none =>
    exfalso
    unfold DNS_HEADER.ofBytes at hr
    split at hr
    · exact absurd hr (by simp)
    · rename_i hno
      match mem, h, hno with
      | b0 :: b1 :: b2 :: b3 :: b4 :: b5 :: b6 :: b7 :: b8 :: b9 :: b10 :: b11 :: t, _, hno =>
        exact hno b0 b1 b2 b3 b4 b5 b6 b7 b8 b9 b10 b11 t rfl

/-- Inside the list `getD` is the element. -/
theorem getD_eq_getElem_of_lt (d : List Nat) (i : Nat) (h : i < d.length) :
    d.getD i 0 = d[i] := by
  simp [List.getD, h]

/-- The counting loop adds at least one to `NumLables`. -/
theorem count_num_gt (mem : List Nat) (p : Nat) :
    ∀ (fuel : Nat) (i Length : Int) (N0 : Nat) (r : Int × Nat),
      LabelFormatToHostname.count mem p fuel i Length N0 = some r → N0 < r.2 := by
  intro fuel
  induction fuel with
  | zero => intro i Length N0 r h; simp [LabelFormatToHostname.count] at h
  | succ fuel ih =>
    intro i Length N0 r h
    simp only [LabelFormatToHostname.count] at h
    cases h0 : readUINT8At mem (p + i) with
    | none => simp [h0] at h
    | some c =>
      simp only [h0] at h
      cases h1 : readUINT8At mem (p + (i + (CHAR8toINTN c + 1))) with
      | none => simp [h1] at h
      | some b =>
        simp only [h1] at h
        by_cases hb : b = 0
        · simp [hb] at h
          rw [← h]
          simp
        · simp only [ne_eq, hb, not_false_eq_true, if_true] at h
          have := ih _ _ _ r h
          omega

/-- The counting loop on labels that are followed by an octet from 0x80 on: when it ends, it
has counted the labels and at least one more. -/
theorem count_labels_then_high (mem : List Nat) (p b : Nat) (rest : List Nat)
    (hb : 128 ≤ b) (ls : List (List Nat)) :
    ∀ (fuel i N0 : Nat) (Length : Int) (r : Int × Nat),
      (∀ l ∈ ls, 1 ≤ l.length ∧ l.length < 128) →
      mem.drop (p + i) = wireLabels ls ++ b :: rest →
      LabelFormatToHostname.count mem p fuel (i : Int) Length N0 = some r →
      N0 + ls.length + 1 ≤ r.2 := by
  induction ls with
  | nil =>
    intro fuel i N0 Length r _ _ h
    have := count_num_gt mem p fuel _ _ _ r h
    simp
    omega
  | cons l ls ih =>
    intro fuel i N0 Length r hl h hr
    cases fuel with
    | zero => simp [LabelFormatToHostname.count] at hr
    | succ fuel =>
      have hlen := hl l (by simp)
      have h0 : readUINT8 mem (p + i) = some l.length :=
        readUINT8_of_drop mem (p + i) l.length (l ++ wireLabels ls ++ b :: rest) (by
          rw [h]; simp [wireLabels])
      have h2 : mem.drop (p + (i + (l.length + 1))) = wireLabels ls ++ b :: rest := by
        have := drop_add_of_drop_eq mem (p + i) (l.length :: l) (wireLabels ls ++ b :: rest) (by
          rw [h]; simp [wireLabels])
        simpa [Nat.add_assoc] using this
      obtain ⟨c, h3, hc⟩ : ∃ c, readUINT8 mem (p + (i + (l.length + 1))) = some c ∧ c ≠ 0 := by
        cases ls with
        | nil =>
          exact ⟨b, readUINT8_of_drop mem _ b rest (by rw [h2]; simp [wireLabels]), by omega⟩
        | cons l2 ls2 =>
          have := (hl l2 (by simp)).1
          exact ⟨l2.length, readUINT8_of_drop mem _ l2.length (l2 ++ wireLabels ls2 ++ b :: rest)
            (by rw [h2]; simp [wireLabels]), by omega⟩
      rw [count_step mem p fuel i l.length c N0 Length hlen.2 h0 h3] at hr
      simp only [ne_eq, hc, not_false_eq_true, if_true] at hr
      have := ih fuel (i + (l.length + 1)) (N0 + 1) _ r
        (fun x hx => hl x (List.mem_cons_of_mem _ hx)) h2 hr
      simp only [List.length_cons]
      omega

/-- The copy loop on labels that are followed by an octet from 0x80 on, for more labels than
there are: the octet is the length of a copy, which runs outside the pool. -/
theorem fill_labels_then_high (mem : List Nat) (b : Nat) (rest : List Nat)
    (hb : 128 ≤ b) (ls : List (List Nat)) :
    ∀ (n i Label : Nat), (∀ l ∈ ls, l.length < 128) → ls.length < n →
      mem.drop Label = wireLabels ls ++ b :: rest →
      LabelFormatToHostname.fill mem n i Label = none := by
  induction ls with
  | nil =>
    intro n i Label _ hn h
    obtain ⟨m, rfl⟩ : ∃ m, n = m + 1 := ⟨n - 1, by simp at hn; omega⟩
    have h0 : readUINT8 mem Label = some b :=
      readUINT8_of_drop mem Label b rest (by rw [h]; simp [wireLabels])
    have hnb : ¬ b < 128 := by omega
    simp [LabelFormatToHostname.fill, h0, CHAR8toUINTN, hnb]
  | cons l ls ih =>
    intro n i Label hl hn h
    obtain ⟨m, rfl⟩ : ∃ m, n = m + 1 := ⟨n - 1, by simp at hn; omega⟩
    have hlen : l.length < 128 := hl l (by simp)
    have h0 : readUINT8 mem Label = some l.length :=
      readUINT8_of_drop mem Label l.length (l ++ wireLabels ls ++ b :: rest) (by
        rw [h]; simp [wireLabels])
    have h1 : mem.drop (Label + (0 + 1)) = l ++ (wireLabels ls ++ b :: rest) := by
      have := drop_add_of_drop_eq mem Label [l.length] (l ++ (wireLabels ls ++ b :: rest)) (by
        rw [h]; simp [wireLabels])
      simpa using this
    have h2 : mem.drop (Label + (l.length + 1)) = wireLabels ls ++ b :: rest := by
      have := drop_add_of_drop_eq mem Label (l.length :: l) (wireLabels ls ++ b :: rest) (by
        rw [h]; simp [wireLabels])
      simpa using this
    have ih1 := ih m (i + 1) (Label + (l.length + 1))
      (fun x hx => hl x (List.mem_cons_of_mem _ hx)) (by simp at hn; omega) h2
    simp [LabelFormatToHostname.fill, h0, CHAR8toUINTN, hlen,
      copyLabel_spec mem Label l 0 _ h1, ih1]

/-- No name is decoded from labels that are followed by an octet from 0x80 on: the result of
`LabelFormatToHostname` is NULL, or the function has no defined result. -/
theorem LabelFormatToHostname_labels_then_high (mem : List Nat) (p b : Nat)
    (rest : List Nat) (hb : 128 ≤ b) (ls : List (List Nat))
    (hl : ∀ l ∈ ls, 1 ≤ l.length ∧ l.length < 128)
    (h : mem.drop p = wireLabels ls ++ b :: rest) :
    LabelFormatToHostname mem p = none ∨ LabelFormatToHostname mem p = some none := by
  unfold LabelFormatToHostname
  cases hc : LabelFormatToHostname.count mem p mem.length 0 0 0 with
  | none => exact Or.inl rfl
  | some r =>
    obtain ⟨Length, NumLables⟩ := r
    by_cases hneg : Length + (NumLables : Int) < 0
    · right
      simp [hneg]
    · left
      have hn := count_labels_then_high mem p b rest hb ls mem.length 0 0 0 (Length, NumLables)
        hl (by simpa using h) (by simpa using hc)
      have hf := fill_labels_then_high mem b rest hb ls NumLables 0 p
        (fun l hx => (hl l hx).2) (by simp at hn; omega) h
      simp [hneg, hf]

/-- An octet with its two top bits set is 0x80 or more. -/
theorem pointer_octet_ge (b : Nat) (h : b &&& 192 = 192) : 128 ≤ b := by
  have := @Nat.and_le_left b 192
  omega

/-- The pool of `HostnameToLabelFormat` in terms of the segments of the hostname, for every
hostname of at most 255 bytes. -/
theorem HostnameToLabelFormat_splitDots (h tail : List Nat) (hlen : h.length ≤ 255) :
    HostnameToLabelFormat (some (h ++ tail)) h.length =
      some (some ((h.length + 2) % 256 :: wireName (splitDots h))) := by
  rw [HostnameToLabelFormat_eq h tail hlen, wireName, ← encBody_splitDots h]
  rfl

/-- From 126 bytes on `QName[0]`, the length of the hostname plus 2, is a negative `CHAR8`:
`CreateDNSPacket` has no defined result and `GetHostByName` neither. -/
theorem GetHostByName_long (Udp4 : EFI_UDP4_PROTOCOL) (I : DNSCLIENT_PRIVATE_DATA)
    (h t ip : List Nat) (hnz : ∀ b ∈ h, b ≠ 0) (h126 : 126 ≤ h.length)
    (h253 : h.length ≤ 253) :
    GetHostByName Udp4 (some I) (some (h ++ 0 :: t)) (some ip) = none := by
  have h1 := AsciiStrnLenS_spec h t hnz 255 0 (by omega)
  have h2 := HostnameToLabelFormat_eq h (0 :: t) (by omega)
  have hm : (h.length + 2) % 256 = h.length + 2 := Nat.mod_eq_of_lt (by omega)
  rw [hm] at h2
  have h2w : HostnameToLabelFormat (some (h ++ 0 :: t)) h.length =
      some (some ((h.length + 2) :: ((encBody h).2 :: (encBody h).1 ++ [0]))) := by
    rw [h2]; rfl
  have h4 := CreateDNSPacket_negative_length (h.length + 2) (HTONS 1) (HTONS 1)
    ((encBody h).2 :: (encBody h).1 ++ [0]) (by omega)
  simp only [Nat.zero_add] at h1
  simp only [GetHostByName, h1, Option.bind, h2w, h4]

/-- The name steps of the two loops and the loops themselves on labels that are followed by
an octet from 0x80 on: the name is NULL and the loop ends with `EFI_OUT_OF_RESOURCES`, or
there is no defined result. -/
theorem names_labels_then_high (Buffer : List Nat) (it b0 : Nat) (l : List Nat)
    (ls : List (List Nat)) (rest : List Nat) (hok : LabelsOk (l :: ls)) (hb : 128 ≤ b0)
    (h : Buffer.drop it = wireLabels (l :: ls) ++ b0 :: rest) :
    (ReceiveDNSPacket.answerName Buffer it = none ∨
      ∃ it1, ReceiveDNSPacket.answerName Buffer it = some (none, it1)) ∧
    (ReceiveDNSPacket.questionName Buffer it = none ∨
      ∃ it1, ReceiveDNSPacket.questionName Buffer it = some (none, it1)) := by
  have hd := LabelFormatToHostname_labels_then_high Buffer it b0 rest hb (l :: ls)
    (fun x hx => ⟨(hok x hx).1, by have := (hok x hx).2; omega⟩) h
  have h0 : readUINT8 Buffer it = some l.length :=
    readUINT8_of_drop Buffer it l.length (l ++ wireLabels ls ++ b0 :: rest) (by
      rw [h]; simp [wireLabels])
  have hp := not_pointer_of_le l.length (hok l (by simp)).2
  constructor
  · rcases hd with hd | hd
    · left; simp [ReceiveDNSPacket.answerName, h0, hp, hd]
    · cases hs : ReceiveDNSPacket.skipName (Buffer.drop it) it with
      | none => left; simp [ReceiveDNSPacket.answerName, h0, hp, hd, hs]
      | some it1 => right; exact ⟨it1, by simp [ReceiveDNSPacket.answerName, h0, hp, hd, hs]⟩
  · rcases hd with hd | hd
    · left; simp [ReceiveDNSPacket.questionName, h0, hp, hd]
    · cases hs : ReceiveDNSPacket.skipName (Buffer.drop it) it with
      | none => left; simp [ReceiveDNSPacket.questionName, h0, hp, hd, hs]
      | some it1 => right; exact ⟨it1, by simp [ReceiveDNSPacket.questionName, h0, hp, hd, hs]⟩

set_option maxRecDepth 100000 in
/-- C1, the code at a hostname of 126 bytes (`longHost`: two labels of 63 and 62 bytes, no
NUL). `HostnameToLabelFormat` stores the length plus 2, which is 128, in the `CHAR8` at the
start of the pool; `CreateDNSPacket` reads it back as a negative length for `CopyMem`, so it
has no defined result, and `GetHostByName` has none: it does not return `EFI_SUCCESS` with
the address, whatever the response is. For `example.com` and the response `sampleResponse` it
returns `EFI_SUCCESS` and leaves `93.184.216.34` in `IpAddress`. -/
theorem C1_long_hostname_no_result :
    longHost.length = 126 ∧ LabelsOk (splitDots longHost) ∧ NoNul (splitDots longHost) ∧
    HostnameToLabelFormat (some (longHost ++ [0])) 126 =
      some (some (128 :: wireName (splitDots longHost))) ∧
    CHAR8toUINTN 128 = none ∧
    CreateDNSPacket [{ QName := 128 :: wireName (splitDots longHost), QType := HTONS 1,
                       QClass := HTONS 1 }] 1 = none ∧
    GetHostByName ⟨.EFI_SUCCESS, .ok sampleResponse⟩ (some ⟨0⟩) (some (longHost ++ [0]))
        (some [9, 9, 9, 9]) = none ∧
    GetHostByName ⟨.EFI_SUCCESS, .ok sampleResponse⟩ (some ⟨0⟩) (some (exampleHost ++ [0]))
        (some [9, 9, 9, 9]) =
      some ⟨.EFI_SUCCESS, some [93, 184, 216, 34], some ⟨1⟩, some exampleRequest⟩ :=
  ⟨by decide, by decide, by decide,
   HostnameToLabelFormat_splitDots longHost [0] (by decide),
   by decide,
   CreateDNSPacket_negative_length 128 (HTONS 1) (HTONS 1) _ (by decide),
   GetHostByName_long _ ⟨0⟩ longHost [] [9, 9, 9, 9] (by decide) (by decide) (by decide),
   by decide⟩

/-- C2. Round trip of the name codec. For a hostname `h` that is the dotted form of one or
more labels of 1 to 63 bytes each (no NUL and no `.` inside a label) and whose wire name has
at most 255 bytes, `HostnameToLabelFormat(h, length of h)` returns the pool that holds the
byte `length of h + 2` followed by the wire name of the labels, and `LabelFormatToHostname`
applied to that wire name (the pool from its second byte on) returns the string `h`. -/
theorem C2_roundtrip (ls : List (List Nat)) (tail : List Nat) (hne : ls ≠ [])
    (hok : LabelsOk ls) (hnul : NoNul ls) (hdot : NoDot ls)
    (hsize : (wireName ls).length ≤ 255) :
    HostnameToLabelFormat (some (dotted ls ++ tail)) (dotted ls).length =
      some (some (((dotted ls).length + 2) :: wireName ls)) ∧
    LabelFormatToHostname (((dotted ls).length + 2) :: wireName ls) 1 =
      some (some (dotted ls ++ [0])) ∧
    cstr (dotted ls ++ [0]) = dotted ls := by
  obtain ⟨l, ls1, rfl⟩ : ∃ l ls1, ls = l :: ls1 := by
    cases ls with
    | nil => exact absurd rfl hne
    | cons l ls1 => exact ⟨l, ls1, rfl⟩
  have hlen := dotted_length (l :: ls1) hne
  have hw : (wireName (l :: ls1)).length = labelBytes (l :: ls1) + (l :: ls1).length + 1 := by
    simp [wireName, wireLabels_length]
  have h255 : (dotted (l :: ls1)).length ≤ 255 := by omega
  have hm : ((dotted (l :: ls1)).length + 2) % 256 = (dotted (l :: ls1)).length + 2 :=
    Nat.mod_eq_of_lt (by omega)
  have henc := HostnameToLabelFormat_eq (dotted (l :: ls1)) tail h255
  have hwire : (encBody (dotted (l :: ls1))).2 :: (encBody (dotted (l :: ls1))).1 ++ [0] =
      wireName (l :: ls1) := by
    rw [encBody_dotted l ls1 hdot]; rfl
  rw [hm] at henc
  refine ⟨by rw [henc]; exact congrArg (fun w => some (some (_ :: w))) hwire, ?_, ?_⟩
  · exact LabelFormatToHostname_spec _ 1 (l :: ls1) [] hne
      (fun x hx => ⟨(hok x hx).1, by have := (hok x hx).2; omega⟩) rfl
  · exact cstr_append_zero _ [] (dotsep_ne_zero _ hnul 0)

/-- C2 at the hostname `example.com`. -/
theorem C2_roundtrip_witness :
    HostnameToLabelFormat (some (exampleHost ++ [0])) 11 =
      some (some [13, 7, 101, 120, 97, 109, 112, 108, 101, 3, 99, 111, 109, 0]) ∧
    LabelFormatToHostname [13, 7, 101, 120, 97, 109, 112, 108, 101, 3, 99, 111, 109, 0] 1 =
      some (some (exampleHost ++ [0])) ∧
    cstr (exampleHost ++ [0]) = exampleHost :=
  C2_roundtrip exampleLabels [0] (by decide) (by decide) (by decide) (by decide) (by decide)

/-- C3, the code at `rootPointerResponse`. The name in label format at offset 12 is the root
name, the single octet 0, whose dotted form is the empty string; it is followed by the bytes
`01 01 00 01` of the type 257 and the class 1. The name field of the answer at offset 17 is
the pointer `C0 0C` to it. The `do ... while` loop of `LabelFormatToHostname` takes a first
label before it looks for the zero octet, so the name decoded for the answer is the three
bytes `2E 01 00` (a dot and the byte 01), not the empty string; the cursor moves from 17 to
19. With the labels of `example.com` at offset 12 and the pointer `C0 0C` at offset 29
(`sampleResponse`) the decoded name is `example.com`. -/
theorem C3_pointer_to_root_name :
    rootPointerResponse.drop 12 = 0 :: rootPointerResponse.drop 13 ∧
    wireName [] = [0] ∧ dotted [] ++ [0] = [0] ∧
    (rootPointerResponse.drop 17).take 2 = [192, 12] ∧
    LabelFormatToHostname (rootPointerResponse ++ List.replicate 12 0) 12 =
      some (some [46, 1, 0]) ∧
    ReceiveDNSPacket.answerName (rootPointerResponse ++ List.replicate 12 0) 17 =
      some (some [46, 1, 0], 19) ∧
    (ReceiveDNSPacket.decode rootPointerResponse).map
        (Option.map (fun P => P.Answers.map (fun A => A.Name))) = some (some [[46, 1, 0]]) ∧
    ReceiveDNSPacket.answerName (sampleResponse ++ List.replicate 12 0) 29 =
      some (some (exampleHost ++ [0]), 31) ∧
    (ReceiveDNSPacket.decode sampleResponse).map
        (Option.map (fun P => P.Answers.map (fun A => A.Name))) =
      some (some [exampleHost ++ [0]]) := by
  decide

/-- C5, refuted as stated. In `forwardPointerResponse` the answer name at offset 12 is a
pointer to offset 28, behind the pointer; the decoding does not fail and returns the name `a`
found there. -/
theorem C5_forward_pointer_accepted :
    ReceiveDNSPacket.decode forwardPointerResponse =
      some (some
           { Header := { samplePacket.Header with QdCount := 0 }
             DataLength := 0
             Data := .records []
               [{ Name := [97, 0], Type_ := 1, Class := 1, TTL := 0, RdLength := 4,
                  RData := some [1, 2, 3, 4] }] }) := by
  decide

/-- C5 as amended. The answer loop does not compare the target of a pointer with the
position of the pointer: when the name field of an answer at the cursor `it` is a pointer to
an offset `p` at or behind `it` (`p < 16384`) and a name in label format stands at `p`, that
name is decoded and returned, and the cursor moves on by 2 bytes. -/
theorem C5_pointer_target_not_checked (Buffer : List Nat) (it p : Nat)
    (ls : List (List Nat)) (rest rest2 : List Nat) (hp : p < 16384) (_hge : it ≤ p)
    (hne : ls ≠ []) (hok : LabelsOk ls)
    (hname : Buffer.drop p = wireName ls ++ rest2)
    (hptr : Buffer.drop it = (192 + p / 256) :: (p % 256) :: rest) :
    ReceiveDNSPacket.answerName Buffer it = some (some (dotted ls ++ [0]), it + 2) :=
  answerName_pointer Buffer it p ls rest rest2 hp hne
    (fun x hx => ⟨(hok x hx).1, by have := (hok x hx).2; omega⟩) hptr
    (by rw [hname]; simp [wireName])

/-- C5 as amended, at `forwardPointerResponse`: pointer at offset 12, target 28. -/
theorem C5_pointer_target_not_checked_witness :
    (12 ≤ 28) ∧
    ReceiveDNSPacket.answerName (forwardPointerResponse ++ List.replicate 12 0) 12 =
      some (some [97, 0], 14) :=
  ⟨by decide,
   C5_pointer_target_not_checked (forwardPointerResponse ++ List.replicate 12 0) 12 28 [[97]]
    ((forwardPointerResponse ++ List.replicate 12 0).drop 14)
    ((forwardPointerResponse ++ List.replicate 12 0).drop 31) (by decide) (by decide)
    (by decide) (by decide) (by decide) (by decide)⟩

/-- C6. Count invariant. For every datagram (of bytes below 256) that `ReceiveDNSPacket`
decodes, the number of questions decoded is the QDCOUNT of the header and the number of
answers decoded is its ANCOUNT, and these are the big-endian values of the bytes at
offsets 4, 5 and 6, 7 of the datagram (a byte the datagram lacks counts as zero). -/
theorem C6_count_invariant (d : List Nat) (P : DNS_PACKET) (hb : ∀ b ∈ d, b < 256)
    (hd : ReceiveDNSPacket.decode d = some (some P)) :
    P.Questions.length = P.Header.QdCount ∧ P.Answers.length = P.Header.AnCount ∧
    P.Header.QdCount = 256 * d.getD 4 0 + d.getD 5 0 ∧
    P.Header.AnCount = 256 * d.getD 6 0 + d.getD 7 0 := by
  obtain ⟨raw, qs, it, as, it2, hraw, hq, ha, e1, e2, _, e4, e5⟩ := decode_some d P hd
  obtain ⟨_, c1, c2⟩ := ofBytes_counts _ raw hraw
  simp only [getD_append_zeros] at c1 c2
  have l1 := questions_length _ _ _ _ hq
  have l2 := (answers_shape _ _ _ _ ha).1
  simp only at l1 l2
  refine ⟨by rw [e4, e1, l1], by rw [e5, e2, l2], ?_, ?_⟩
  · rw [e1, c1]; exact HTONS_bytes _ _ (getD_lt d hb 4) (getD_lt d hb 5)
  · rw [e2, c2]; exact HTONS_bytes _ _ (getD_lt d hb 6) (getD_lt d hb 7)

/-- C6 at `sampleResponse`, which decodes to `samplePacket`: one question, one answer. -/
theorem C6_count_invariant_witness :
    ReceiveDNSPacket.decode sampleResponse = some (some samplePacket) ∧
    samplePacket.Questions.length = samplePacket.Header.QdCount ∧
    samplePacket.Answers.length = samplePacket.Header.AnCount ∧
    samplePacket.Header.QdCount = 256 * sampleResponse.getD 4 0 + sampleResponse.getD 5 0 ∧
    samplePacket.Header.AnCount = 256 * sampleResponse.getD 6 0 + sampleResponse.getD 7 0 :=
  ⟨by decide, C6_count_invariant sampleResponse samplePacket (by decide) (by decide)⟩

/-- C7, refuted as stated. The request for `example.com` carries the id 1 (bytes `00 01` of
`exampleRequest`); the response `mismatchedResponse` carries the id 0x1234 = 4660.
`GetHostByName` returns to its caller with `EFI_SUCCESS` and the address of that response. -/
theorem C7_mismatched_id_accepted :
    (ReceiveDNSPacket.decode mismatchedResponse).map (Option.map (fun P => P.Header.Id)) =
      some (some 4660) ∧
    GetHostByName ⟨.EFI_SUCCESS, .ok mismatchedResponse⟩ (some ⟨0⟩) (some (exampleHost ++ [0]))
        (some [9, 9, 9, 9]) =
      some ⟨.EFI_SUCCESS, some [93, 184, 216, 34], some ⟨1⟩, some exampleRequest⟩ := by
  decide

/-- C7 as amended. `GetHostByName` does not compare the id of the response with the id of
the request: a response with one address record whose header id `256 * i0 + i1` differs from
the id of the request is handled like a matching one, and `GetHostByName` returns
`EFI_SUCCESS` with the address of that response. -/
theorem C7_response_id_not_compared (I : DNSCLIENT_PRIVATE_DATA) (h t ip : List Nat)
    (i0 i1 f0 f1 n0 n1 r0 r1 : Nat) (qls : List (List Nat))
    (qt0 qt1 qc0 qc1 : Nat) (aname : List Nat) (c0 c1 t0 t1 t2 t3 a b c d : Nat)
    (rest : List Nat) (hnz : ∀ x ∈ h, x ≠ 0) (hlen : h.length ≤ 125)
    (hq : qls ≠ []) (hok : LabelsOk qls) (hnul : NoNul qls)
    (ha : aname = [192, 12] ∨
      ∃ als, als ≠ [] ∧ LabelsOk als ∧ NoNul als ∧ aname = wireName als)
    (_hid : 256 * i0 + i1 ≠ (I.IdIterator + 1) % 65536) :
    GetHostByName ⟨.EFI_SUCCESS, .ok (addressResponse i0 i1 f0 f1 n0 n1 r0 r1 (wireName qls)
        qt0 qt1 qc0 qc1 aname c0 c1 t0 t1 t2 t3 a b c d rest)⟩
      (some I) (some (h ++ 0 :: t)) (some ip) =
    some ⟨.EFI_SUCCESS, some [a, b, c, d], some ⟨(I.IdIterator + 1) % 65536⟩,
      some (requestOf I.IdIterator h)⟩ :=
  GetHostByName_addressResponse I h t ip i0 i1 f0 f1 n0 n1 r0 r1 qls qt0 qt1 qc0 qc1 aname
    c0 c1 t0 t1 t2 t3 a b c d rest hnz hlen hq hok hnul ha

/-- C7 as amended, at the request id 1 and the response id 0x1234. -/
theorem C7_response_id_not_compared_witness :
    256 * 18 + 52 ≠ (0 + 1) % 65536 ∧
    GetHostByName ⟨.EFI_SUCCESS, .ok mismatchedResponse⟩ (some ⟨0⟩) (some (exampleHost ++ [0]))
        (some [9, 9, 9, 9]) =
      some ⟨.EFI_SUCCESS, some [93, 184, 216, 34], some ⟨1⟩, some exampleRequest⟩ :=
  ⟨by decide,
   C7_response_id_not_compared ⟨0⟩ exampleHost [] [9, 9, 9, 9] 18 52 129 128 0 0 0 0
    exampleLabels 0 1 0 1 [192, 12] 0 1 0 0 14 16 93 184 216 34 [] (by decide) (by decide)
    (by decide) (by decide) (by decide) (Or.inl rfl) (by decide)⟩

/-- C8, refuted as stated. The one answer of `nsResponse` is a name-server record (type 2)
and the response holds no address record; `GetHostByName` returns `EFI_SUCCESS`, with the
address `0.0.0.0`. -/
theorem C8_ns_answer_reports_success :
    ReceiveDNSPacket.decode nsResponse = some (some nsPacket) ∧
    GetHostByName ⟨.EFI_SUCCESS, .ok nsResponse⟩ (some ⟨0⟩) (some (exampleHost ++ [0]))
        (some [9, 9, 9, 9]) =
      some ⟨.EFI_SUCCESS, some [0, 0, 0, 0], some ⟨1⟩, some exampleRequest⟩ := by
  decide

/-- C8 as amended. For every decoded response whose first answer has a type other than 1,
`GetHostByName` returns `EFI_SUCCESS` and leaves `IpAddress` cleared to `0.0.0.0`: no
resource data of the record is reported as an address. -/
theorem C8_other_type_success_zero_address (I : DNSCLIENT_PRIVATE_DATA) (h t ip d : List Nat)
    (R : DNS_PACKET) (A : DNS_ANSWER) (tl : List DNS_ANSWER)
    (hnz : ∀ x ∈ h, x ≠ 0) (hlen : h.length ≤ 125)
    (hd : ReceiveDNSPacket.decode d = some (some R)) (hA : R.Answers = A :: tl)
    (hty : A.Type_ ≠ 1) :
    GetHostByName ⟨.EFI_SUCCESS, .ok d⟩ (some I) (some (h ++ 0 :: t)) (some ip) =
      some ⟨.EFI_SUCCESS, some [0, 0, 0, 0], some ⟨(I.IdIterator + 1) % 65536⟩,
        some (requestOf I.IdIterator h)⟩ := by
  rw [GetHostByName_decoded I h t ip d R hnz hlen hd]
  simp [(answers_ne_zero d R A tl hd hA).1, hA, hty]

/-- C8 as amended, at `nsResponse`. -/
theorem C8_other_type_success_zero_address_witness :
    GetHostByName ⟨.EFI_SUCCESS, .ok nsResponse⟩ (some ⟨0⟩) (some (exampleHost ++ [0]))
        (some [9, 9, 9, 9]) =
      some ⟨.EFI_SUCCESS, some [0, 0, 0, 0], some ⟨1⟩, some exampleRequest⟩ :=
  C8_other_type_success_zero_address ⟨0⟩ exampleHost [] [9, 9, 9, 9] nsResponse nsPacket
    _ [] (by decide) (by decide) (by decide) rfl (by decide)

/-- C9, refuted as stated. `cnameResponse` holds a CNAME record followed by the address
record `93.184.216.34`. The decoded answers have the types 5 and 354 (the second answer is
decoded from the resource data of the first), and `GetHostByName` returns `EFI_SUCCESS` with
the address `0.0.0.0`, not with the address of the address record. -/
theorem C9_cname_then_address :
    (ReceiveDNSPacket.decode cnameResponse).map
        (Option.map (fun P => P.Answers.map (fun A => A.Type_))) = some (some [5, 354]) ∧
    GetHostByName ⟨.EFI_SUCCESS, .ok cnameResponse⟩ (some ⟨0⟩) (some (exampleHost ++ [0]))
        (some [9, 9, 9, 9]) =
      some ⟨.EFI_SUCCESS, some [0, 0, 0, 0], some ⟨1⟩, some exampleRequest⟩ := by
  decide

/-- C9 as amended. `GetHostByName` looks at the first answer only: for every decoded
response whose first answer has type 1, it returns `EFI_SUCCESS` with the four bytes of that
answer's `A_RECORD` as the address, whatever answers follow. -/
theorem C9_first_answer_only (I : DNSCLIENT_PRIVATE_DATA) (h t ip d : List Nat)
    (R : DNS_PACKET) (A : DNS_ANSWER) (tl : List DNS_ANSWER)
    (hnz : ∀ x ∈ h, x ≠ 0) (hlen : h.length ≤ 125)
    (hd : ReceiveDNSPacket.decode d = some (some R)) (hA : R.Answers = A :: tl)
    (hty : A.Type_ = 1) :
    A.RData.map List.length = some 4 ∧
    GetHostByName ⟨.EFI_SUCCESS, .ok d⟩ (some I) (some (h ++ 0 :: t)) (some ip) =
      some ⟨.EFI_SUCCESS, A.RData, some ⟨(I.IdIterator + 1) % 65536⟩,
        some (requestOf I.IdIterator h)⟩ := by
  obtain ⟨hne, hx⟩ := answers_ne_zero d R A tl hd hA
  obtain ⟨x, hrd, hxl⟩ := hx hty
  refine ⟨by simp [hrd, hxl], ?_⟩
  rw [GetHostByName_decoded I h t ip d R hnz hlen hd]
  simp [hne, hA, hty, hrd, readBytes, hxl]

/-- C9 as amended, at `sampleResponse` and the id counter 5. -/
theorem C9_first_answer_only_witness :
    GetHostByName ⟨.EFI_SUCCESS, .ok sampleResponse⟩ (some ⟨5⟩) (some (exampleHost ++ [0]))
        (some [9, 9, 9, 9]) =
      some ⟨.EFI_SUCCESS, some [93, 184, 216, 34], some ⟨6⟩, some (requestOf 5 exampleHost)⟩ :=
  (C9_first_answer_only ⟨5⟩ exampleHost [] [9, 9, 9, 9] sampleResponse samplePacket
    _ [] (by decide) (by decide) (by decide) rfl rfl).2

/-- C10. End-to-end scenario 2. For every decoded response whose ANCOUNT is 0,
`GetHostByName` returns `EFI_ABORTED` and leaves `IpAddress` cleared to `0.0.0.0`. -/
theorem C10_no_answer_aborted (I : DNSCLIENT_PRIVATE_DATA) (h t ip d : List Nat)
    (R : DNS_PACKET) (hnz : ∀ x ∈ h, x ≠ 0) (hlen : h.length ≤ 125)
    (hd : ReceiveDNSPacket.decode d = some (some R)) (han : R.Header.AnCount = 0) :
    GetHostByName ⟨.EFI_SUCCESS, .ok d⟩ (some I) (some (h ++ 0 :: t)) (some ip) =
      some ⟨.EFI_ABORTED, some [0, 0, 0, 0], some ⟨(I.IdIterator + 1) % 65536⟩,
        some (requestOf I.IdIterator h)⟩ := by
  rw [GetHostByName_decoded I h t ip d R hnz hlen hd]
  simp [han]

/-- C10 at `noAnswerResponse`, which decodes to `noAnswerPacket`. -/
theorem C10_no_answer_aborted_witness :
    ReceiveDNSPacket.decode noAnswerResponse = some (some noAnswerPacket) ∧
    GetHostByName ⟨.EFI_SUCCESS, .ok noAnswerResponse⟩ (some ⟨0⟩) (some (exampleHost ++ [0]))
        (some [9, 9, 9, 9]) =
      some ⟨.EFI_ABORTED, some [0, 0, 0, 0], some ⟨1⟩, some exampleRequest⟩ :=
  ⟨by decide,
   C10_no_answer_aborted ⟨0⟩ exampleHost [] [9, 9, 9, 9] noAnswerResponse noAnswerPacket
    (by decide) (by decide) (by decide) rfl⟩

/-- C11. For every hostname `h` of at most 253 bytes (followed in memory by anything, such
as its NUL), `HostnameToLabelFormat(h, length of h)` returns the pool that holds one byte
with `length of h + 2` followed by the wire name of the segments of `h`: for each segment, in
order, one octet with its length and then its bytes, and one zero octet at the end. The
segments `splitDots h` are the split of `h` at the delimiter: joined by `.` they give `h`
back, and none holds a `.`. The wire name has `length of h + 2` bytes. -/
theorem C11_label_format (h tail : List Nat) (hlen : h.length ≤ 253) :
    HostnameToLabelFormat (some (h ++ tail)) h.length =
      some (some ((h.length + 2) :: wireName (splitDots h))) ∧
    wireName (splitDots h) = wireLabels (splitDots h) ++ [0] ∧
    (wireName (splitDots h)).length = h.length + 2 ∧
    dotted (splitDots h) = h ∧ NoDot (splitDots h) := by
  have h1 := HostnameToLabelFormat_eq h tail (by omega)
  have hm : (h.length + 2) % 256 = h.length + 2 := Nat.mod_eq_of_lt (by omega)
  rw [hm] at h1
  refine ⟨?_, rfl, wireName_splitDots_length h, dotted_splitDots h, noDot_splitDots h⟩
  rw [h1, wireName, ← encBody_splitDots h]
  rfl

/-- C11 at the hostname `example.com`: the pool is `0D 07 example 03 com 00`. -/
theorem C11_label_format_witness :
    exampleHost.length ≤ 253 ∧ splitDots exampleHost = exampleLabels ∧
    HostnameToLabelFormat (some (exampleHost ++ [0])) 11 =
      some (some [13, 7, 101, 120, 97, 109, 112, 108, 101, 3, 99, 111, 109, 0]) :=
  ⟨by decide, by decide, (C11_label_format exampleHost [0] (by decide)).1⟩

/-- C12, refuted as stated. The hostname of one segment of 64 bytes is encoded:
`HostnameToLabelFormat` returns a pool, with the length octet 64 in front of the segment. -/
theorem C12_long_label_encoded :
    splitDots longLabelHost = [longLabelHost] ∧ longLabelHost.length = 64 ∧
    HostnameToLabelFormat (some (longLabelHost ++ [0])) 64 =
      some (some (66 :: 64 :: List.replicate 64 97 ++ [0])) := by
  decide

/-- C12 as amended. `HostnameToLabelFormat` checks neither the length of a segment nor the
length of the encoded name: for every hostname `h` of at most 255 bytes, whatever its
segments, it returns the pool with the byte `(length of h + 2) mod 256` followed by the wire
name of the segments of `h`, and never NULL. -/
theorem C12_no_validation (h tail : List Nat) (hlen : h.length ≤ 255) :
    HostnameToLabelFormat (some (h ++ tail)) h.length =
      some (some ((h.length + 2) % 256 :: wireName (splitDots h))) := by
  rw [HostnameToLabelFormat_eq h tail hlen, wireName, ← encBody_splitDots h]
  rfl

/-- C12 as amended, at the hostname of one segment of 64 bytes. -/
theorem C12_no_validation_witness :
    longLabelHost.length ≤ 255 ∧
    HostnameToLabelFormat (some (longLabelHost ++ [0])) longLabelHost.length =
      some (some ((longLabelHost.length + 2) % 256 :: wireName (splitDots longLabelHost))) :=
  ⟨by decide, C12_no_validation longLabelHost [0] (by decide)⟩

/-- C13, the code at the empty hostname. `HostnameToLabelFormat("", 0)` returns the pool
`02 00 00`: the length byte 2 and a wire name of two zero octets, which is not the root wire
name (the one zero octet `wireName []`). -/
theorem C13_empty_hostname_two_octets :
    HostnameToLabelFormat (some [0]) 0 = some (some (2 :: [0, 0])) ∧
    wireName [] = [0] ∧ [0, 0] ≠ wireName [] := by
  decide

/-- C14, refuted as stated. With the empty hostname (the string that is just its NUL) and
the counter at 0, `GetHostByName` builds the request with id 1, hands its 22 bytes to the
transport, and returns `EFI_SUCCESS` with the address of the response, where a NULL hostname
gives `EFI_INVALID_PARAMETER` and no request. -/
theorem C14_empty_hostname_resolved :
    GetHostByName ⟨.EFI_SUCCESS, .ok sampleResponse⟩ (some ⟨0⟩) (some [0]) (some [9, 9, 9, 9]) =
      some ⟨.EFI_SUCCESS, some [93, 184, 216, 34], some ⟨1⟩,
        some [0, 1, 1, 32, 0, 1, 0, 0, 0, 0, 0, 0, 0, 0, 0, 1, 0, 1, 0, 0, 0, 0]⟩ ∧
    GetHostByName ⟨.EFI_SUCCESS, .ok sampleResponse⟩ (some ⟨0⟩) none (some [9, 9, 9, 9]) =
      some ⟨.EFI_INVALID_PARAMETER, some [9, 9, 9, 9], some ⟨0⟩, none⟩ := by
  decide

/-- C14 as amended. `GetHostByName` fails with `EFI_INVALID_PARAMETER`, before a request is
built or sent and without a change to the counter or to `IpAddress`, when `Instance`,
`Hostname` or `IpAddress` is NULL, and it checks nothing else of them: for the empty hostname
the request is built like for every other hostname, stamped with the next id and handed to
`SendDNSPacket`, and the call goes on with the status of the send. -/
theorem C14_only_null_checked (Udp4 : EFI_UDP4_PROTOCOL) (I : DNSCLIENT_PRIVATE_DATA)
    (h t ip : List Nat) :
    GetHostByName Udp4 none (some h) (some ip) =
      some ⟨.EFI_INVALID_PARAMETER, some ip, none, none⟩ ∧
    GetHostByName Udp4 (some I) none (some ip) =
      some ⟨.EFI_INVALID_PARAMETER, some ip, some I, none⟩ ∧
    GetHostByName Udp4 (some I) (some h) none =
      some ⟨.EFI_INVALID_PARAMETER, none, some I, none⟩ ∧
    GetHostByName Udp4 (some I) (some (0 :: t)) (some ip) =
      GetHostByName.finish Udp4 ⟨(I.IdIterator + 1) % 65536⟩ Udp4.SendStatus
        (some (requestOf I.IdIterator [])) :=
  ⟨rfl, rfl, rfl, GetHostByName_request Udp4 I [] t ip (by simp) (by simp)⟩

/-- C15, the code at the question of `GetHostByName` for `example.com` (wire name of 13
bytes, type 1, class 1). `CreateDNSPacket` gives a data section of 21 bytes, not 17: behind
type and class stand four zero bytes, the padding at the end of `DNS_QUESTION`, because
`sizeof(DNS_QUESTION) - sizeof(CHAR8*)` is 8 on X64. With two questions the padding of the
first stands between them, and `DataLength` is the sum of the name lengths plus 8 * 2. -/
theorem C15_padding_in_question_data :
    CreateDNSPacket
        [{ QName := [13, 7, 101, 120, 97, 109, 112, 108, 101, 3, 99, 111, 109, 0],
           QType := HTONS 1, QClass := HTONS 1 }] 1 =
      some { Header := { DNS_HEADER.zero with QdCount := 256 }
             DataLength := 21
             Data := .raw [7, 101, 120, 97, 109, 112, 108, 101, 3, 99, 111, 109, 0,
                           0, 1, 0, 1, 0, 0, 0, 0] } ∧
    sizeof_DNS_QUESTION - sizeof_pointer = 8 ∧
    (CreateDNSPacket
        [{ QName := [3, 1, 97, 0], QType := HTONS 1, QClass := HTONS 1 },
         { QName := [3, 1, 98, 0], QType := HTONS 28, QClass := HTONS 1 }] 2).map
        (fun P => (P.DataLength, P.Data)) =
      some (22, .raw [1, 97, 0, 0, 1, 0, 1, 0, 0, 0, 0, 1, 98, 0, 0, 28, 0, 1, 0, 0, 0, 0]) := by
  decide

/-- C16. For every hostname `h` (a NUL-terminated string of at most 125 bytes) and counter
value, the request of `GetHostByName` is the packet `CreateDNSPacket` makes for the one
question, with the id, RD and AD stored in its header; `SendDNSPacket` hands to the transport
the 12 header bytes followed by the `DataLength` bytes of question data, 12 + `DataLength`
bytes in all, and that is the buffer `GetHostByName` sends. The header bytes are the id, the
flag bytes `01 20`, QDCOUNT `00 01` and six zero bytes for ANCOUNT, NSCOUNT and ARCOUNT; read
back as a header they have RD = 1 and QR, OPCODE, AA, TC, RA, Z, CD and RCODE 0. -/
theorem C16_transmitted_request (Udp4 : EFI_UDP4_PROTOCOL) (I : DNSCLIENT_PRIVATE_DATA)
    (h t ip : List Nat) (hnz : ∀ x ∈ h, x ≠ 0) (hlen : h.length ≤ 125) :
    CreateDNSPacket [{ QName := (wireOf h).length :: wireOf h, QType := HTONS 1,
                       QClass := HTONS 1 }] 1 =
      some { Header := { DNS_HEADER.zero with QdCount := HTONS 1 }
             DataLength := (wireOf h ++ [0, 1, 0, 1, 0, 0, 0, 0]).length
             Data := .raw (wireOf h ++ [0, 1, 0, 1, 0, 0, 0, 0]) } ∧
    SendDNSPacket Udp4 (some ⟨(I.IdIterator + 1) % 65536⟩)
        (some { Header := { DNS_HEADER.zero with
                  Id := HTONS ((I.IdIterator + 1) % 65536), Rd := 1, Ad := 1,
                  QdCount := HTONS 1 }
                DataLength := (wireOf h ++ [0, 1, 0, 1, 0, 0, 0, 0]).length
                Data := .raw (wireOf h ++ [0, 1, 0, 1, 0, 0, 0, 0]) }) =
      some (Udp4.SendStatus,
        some ([(I.IdIterator + 1) % 65536 / 256, (I.IdIterator + 1) % 65536 % 256, 1, 32,
            0, 1, 0, 0, 0, 0, 0, 0] ++ (wireOf h ++ [0, 1, 0, 1, 0, 0, 0, 0]))) ∧
    GetHostByName Udp4 (some I) (some (h ++ 0 :: t)) (some ip) =
      GetHostByName.finish Udp4 ⟨(I.IdIterator + 1) % 65536⟩ Udp4.SendStatus
        (some ([(I.IdIterator + 1) % 65536 / 256, (I.IdIterator + 1) % 65536 % 256, 1, 32,
            0, 1, 0, 0, 0, 0, 0, 0] ++ (wireOf h ++ [0, 1, 0, 1, 0, 0, 0, 0]))) ∧
    ([(I.IdIterator + 1) % 65536 / 256, (I.IdIterator + 1) % 65536 % 256, 1, 32,
        0, 1, 0, 0, 0, 0, 0, 0] ++ (wireOf h ++ [0, 1, 0, 1, 0, 0, 0, 0])).length =
      12 + (wireOf h ++ [0, 1, 0, 1, 0, 0, 0, 0]).length ∧
    (DNS_HEADER.ofBytes [(I.IdIterator + 1) % 65536 / 256, (I.IdIterator + 1) % 65536 % 256,
        1, 32, 0, 1, 0, 0, 0, 0, 0, 0]).map
        (fun H => (H.Rd, H.Qr, H.Opcode, H.Aa, H.Tc, H.Ra, H.Z, H.Cd, H.RCode)) =
      some (1, 0, 0, 0, 0, 0, 0, 0, 0) := by
  have hw := wireOf_length h
  have e1 : HTONS 1 % 256 = 0 := by decide
  have e2 : HTONS 1 / 256 % 256 = 1 := by decide
  have e3 : HTONS 1 = 256 := by decide
  have hid := id_bytes ((I.IdIterator + 1) % 65536) (Nat.mod_lt _ (by omega))
  refine ⟨?_, ?_, ?_, by simp; omega, by simp [DNS_HEADER.ofBytes]⟩
  · have := CreateDNSPacket_single (wireOf h) (HTONS 1) (HTONS 1) (by omega)
    rw [e1, e2] at this
    rw [this, e3]
    simp
  · have h5 := readBytes_all (wireOf h ++ [0, 1, 0, 1, 0, 0, 0, 0])
    simp only [SendDNSPacket, h5, DNS_HEADER.toBytes, DNS_HEADER.zero, hid.1, hid.2, e1, e2]
  · rw [GetHostByName_request Udp4 I h t ip hnz hlen, requestOf_bytes]

/-- C16 at the hostname `example.com` and the counter value 0: the buffer sent is
`exampleRequest`. -/
theorem C16_transmitted_request_witness :
    GetHostByName ⟨.EFI_SUCCESS, .ok sampleResponse⟩ (some ⟨0⟩) (some (exampleHost ++ [0]))
        (some [9, 9, 9, 9]) =
      GetHostByName.finish ⟨.EFI_SUCCESS, .ok sampleResponse⟩ ⟨1⟩ .EFI_SUCCESS
        (some exampleRequest) :=
  (C16_transmitted_request ⟨.EFI_SUCCESS, .ok sampleResponse⟩ ⟨0⟩ exampleHost [] [9, 9, 9, 9]
    (by decide) (by decide)).2.2.1

/-- C17. `CreateDNSClient` leaves the counter at 0. Every call of `GetHostByName` on non-NULL
arguments that returns has built a request: it leaves the counter at `(c + 1) mod 65536`,
where `c` is the counter before, and the bytes 0 and 1 of the request are that value, high
byte first; for a hostname of at most 125 bytes the request is built in every case. So for
the queries of a client after `CreateDNSClient`, there is one request per call, the counter
ends at the number of calls mod 65536, request number `k + 1` carries the id
`(k + 1) mod 65536`, and two consecutive requests differ in their id bytes. -/
theorem C17_transaction_ids :
    (∀ (Firmware : EFI_STATUS) (J : DNSCLIENT_PRIVATE_DATA),
      (CreateDNSClient Firmware (some J)).2 = some ⟨0⟩) ∧
    (∀ (Udp4 : EFI_UDP4_PROTOCOL) (I : DNSCLIENT_PRIVATE_DATA) (h ip : List Nat)
        (r : GetHostByNameResult),
      GetHostByName Udp4 (some I) (some h) (some ip) = some r →
        r.Instance = some ⟨(I.IdIterator + 1) % 65536⟩ ∧
        r.Transmitted.map (List.take 2) =
          some [(I.IdIterator + 1) % 65536 / 256, (I.IdIterator + 1) % 65536 % 256]) ∧
    (∀ (Udp4 : EFI_UDP4_PROTOCOL) (I : DNSCLIENT_PRIVATE_DATA) (h t ip : List Nat),
      (∀ x ∈ h, x ≠ 0) → h.length ≤ 125 →
        GetHostByName Udp4 (some I) (some (h ++ 0 :: t)) (some ip) =
          GetHostByName.finish Udp4 ⟨(I.IdIterator + 1) % 65536⟩ Udp4.SendStatus
            (some (requestOf I.IdIterator h)) ∧
        (requestOf I.IdIterator h).take 2 =
          [(I.IdIterator + 1) % 65536 / 256, (I.IdIterator + 1) % 65536 % 256]) ∧
    (∀ (Firmware : EFI_STATUS) (J : DNSCLIENT_PRIVATE_DATA)
        (calls : List (EFI_UDP4_PROTOCOL × List Nat)) (sents : List (List Nat))
        (I1 : Option DNSCLIENT_PRIVATE_DATA),
      runQueries calls (CreateDNSClient Firmware (some J)).2 = some (sents, I1) →
        sents.length = calls.length ∧
        (calls ≠ [] → I1 = some ⟨calls.length % 65536⟩) ∧
        (∀ k s, sents[k]? = some s →
          s.take 2 = [(k + 1) % 65536 / 256, (k + 1) % 65536 % 256]) ∧
        (∀ k s1 s2, sents[k]? = some s1 → sents[k + 1]? = some s2 →
          s1.take 2 ≠ s2.take 2)) := by
  refine ⟨fun _ _ => rfl, ?_, ?_, ?_⟩
  · intro Udp4 I h ip r hr
    obtain ⟨h1, body, h2⟩ := GetHostByName_some Udp4 I h ip r hr
    exact ⟨h1, by rw [h2]; rfl⟩
  · intro Udp4 I h t ip hnz hlen
    refine ⟨GetHostByName_request Udp4 I h t ip hnz hlen, ?_⟩
    rw [requestOf_bytes]
    rfl
  · intro Firmware J calls sents I1 hrun
    have hrun0 : runQueries calls (some ⟨0⟩) = some (sents, I1) := hrun
    obtain ⟨l1, l2, l3⟩ := runQueries_ids calls 0 sents I1 hrun0
    refine ⟨l1, ?_, ?_, ?_⟩
    · intro hne
      simpa using l2 hne
    · intro k s hk
      simpa using l3 k s hk
    · intro k s1 s2 hk1 hk2 heq
      have a1 := l3 k s1 hk1
      have a2 := l3 (k + 1) s2 hk2
      rw [heq, a2] at a1
      simp only [Nat.zero_add, List.cons.injEq, and_true] at a1
      omega

/-- C17 at a client that sends two queries for `example.com` after `CreateDNSClient`: the
requests carry the ids 1 and 2 and the counter ends at 2. -/
theorem C17_transaction_ids_witness :
    runQueries [(⟨.EFI_SUCCESS, .ok sampleResponse⟩, exampleHost ++ [0]),
        (⟨.EFI_SUCCESS, .ok noAnswerResponse⟩, exampleHost ++ [0])]
        (CreateDNSClient .EFI_SUCCESS (some ⟨7⟩)).2 =
      some ([exampleRequest, requestOf 1 exampleHost], some ⟨2⟩) ∧
    exampleRequest.take 2 = [0, 1] ∧ (requestOf 1 exampleHost).take 2 = [0, 2] ∧
    exampleRequest.take 2 ≠ (requestOf 1 exampleHost).take 2 :=
  ⟨by decide,
   (C17_transaction_ids.2.2.2 .EFI_SUCCESS ⟨7⟩
      [(⟨.EFI_SUCCESS, .ok sampleResponse⟩, exampleHost ++ [0]),
       (⟨.EFI_SUCCESS, .ok noAnswerResponse⟩, exampleHost ++ [0])]
      [exampleRequest, requestOf 1 exampleHost] (some ⟨2⟩) (by decide)).2.2.1 0 _ rfl,
   (C17_transaction_ids.2.2.2 .EFI_SUCCESS ⟨7⟩
      [(⟨.EFI_SUCCESS, .ok sampleResponse⟩, exampleHost ++ [0]),
       (⟨.EFI_SUCCESS, .ok noAnswerResponse⟩, exampleHost ++ [0])]
      [exampleRequest, requestOf 1 exampleHost] (some ⟨2⟩) (by decide)).2.2.1 1 _ rfl,
   (C17_transaction_ids.2.2.2 .EFI_SUCCESS ⟨7⟩
      [(⟨.EFI_SUCCESS, .ok sampleResponse⟩, exampleHost ++ [0]),
       (⟨.EFI_SUCCESS, .ok noAnswerResponse⟩, exampleHost ++ [0])]
      [exampleRequest, requestOf 1 exampleHost] (some ⟨2⟩) (by decide)).2.2.2 0 _ _ rfl rfl⟩

/-- C18. For every datagram of at least 12 bytes, the header that `ReceiveDNSPacket` copies
out of its buffer and byte-swaps has the fields `Id`, `QdCount`, `AnCount`, `NsCount` and
`ArCount` equal to the big-endian 16-bit values of the byte pairs at the offsets 0, 4, 6, 8
and 10 of the datagram, and these are the header fields of every packet the datagram is
decoded to. -/
theorem C18_header_big_endian (d : List Nat) (h12 : 12 ≤ d.length)
    (hb : ∀ b ∈ d, b < 256) :
    (DNS_HEADER.ofBytes (d ++ List.replicate sizeof_DNS_HEADER 0)).map
        (fun raw => (HTONS raw.Id, HTONS raw.QdCount, HTONS raw.AnCount, HTONS raw.NsCount,
          HTONS raw.ArCount)) =
      some (256 * d[0] + d[1], 256 * d[4] + d[5], 256 * d[6] + d[7], 256 * d[8] + d[9],
        256 * d[10] + d[11]) ∧
    ∀ P, ReceiveDNSPacket.decode d = some (some P) →
      P.Header.Id = 256 * d[0] + d[1] ∧
      P.Header.QdCount = 256 * d[4] + d[5] ∧
      P.Header.AnCount = 256 * d[6] + d[7] ∧
      P.Header.NsCount = 256 * d[8] + d[9] ∧
      P.Header.ArCount = 256 * d[10] + d[11] := by
  obtain ⟨raw, hraw⟩ := ofBytes_some (d ++ List.replicate sizeof_DNS_HEADER 0)
    (by simp; omega)
  obtain ⟨c0, c1, c2, c3, c4⟩ := ofBytes_fields _ raw hraw
  simp only [getD_append_zeros] at c0 c1 c2 c3 c4
  have g0 := HTONS_bytes _ _ (getD_lt d hb 0) (getD_lt d hb 1)
  have g1 := HTONS_bytes _ _ (getD_lt d hb 4) (getD_lt d hb 5)
  have g2 := HTONS_bytes _ _ (getD_lt d hb 6) (getD_lt d hb 7)
  have g3 := HTONS_bytes _ _ (getD_lt d hb 8) (getD_lt d hb 9)
  have g4 := HTONS_bytes _ _ (getD_lt d hb 10) (getD_lt d hb 11)
  rw [← c0] at g0
  rw [← c1] at g1
  rw [← c2] at g2
  rw [← c3] at g3
  rw [← c4] at g4
  simp only [getD_eq_getElem_of_lt d _ (show 0 < d.length by omega),
    getD_eq_getElem_of_lt d _ (show 1 < d.length by omega),
    getD_eq_getElem_of_lt d _ (show 4 < d.length by omega),
    getD_eq_getElem_of_lt d _ (show 5 < d.length by omega),
    getD_eq_getElem_of_lt d _ (show 6 < d.length by omega),
    getD_eq_getElem_of_lt d _ (show 7 < d.length by omega),
    getD_eq_getElem_of_lt d _ (show 8 < d.length by omega),
    getD_eq_getElem_of_lt d _ (show 9 < d.length by omega),
    getD_eq_getElem_of_lt d _ (show 10 < d.length by omega),
    getD_eq_getElem_of_lt d _ (show 11 < d.length by omega)] at g0 g1 g2 g3 g4
  refine ⟨by rw [hraw]; simp only [Option.map_some', g0, g1, g2, g3, g4], ?_⟩
  intro P hd
  obtain ⟨raw2, hraw2, e0, e1, e2, e3, e4⟩ := decode_header d P hd
  rw [hraw] at hraw2
  cases hraw2
  rw [e0, e1, e2, e3, e4]
  exact ⟨g0, g1, g2, g3, g4⟩

/-- C18 at `mismatchedResponse`, whose header starts `12 34` and has the counts 1, 1, 0, 0. -/
theorem C18_header_big_endian_witness :
    12 ≤ mismatchedResponse.length ∧
    (DNS_HEADER.ofBytes (mismatchedResponse ++ List.replicate sizeof_DNS_HEADER 0)).map
        (fun raw => (HTONS raw.Id, HTONS raw.QdCount, HTONS raw.AnCount, HTONS raw.NsCount,
          HTONS raw.ArCount)) = some (4660, 1, 1, 0, 0) ∧
    (ReceiveDNSPacket.decode mismatchedResponse).map
        (Option.map (fun P => (P.Header.Id, P.Header.QdCount, P.Header.AnCount,
          P.Header.NsCount, P.Header.ArCount))) = some (some (4660, 1, 1, 0, 0)) :=
  ⟨by decide, (C18_header_big_endian mismatchedResponse (by decide) (by decide)).1, by decide⟩

/-- C19, refuted as stated. In `wwwResponse` the labels of `example.com` stand at offset 12
and the answer name at offset 29 is `03 w w w C0 0C`. The name step of the answer loop gives
no name there, so not `www.example.com` with the cursor at 35: the octet `C0` is taken as the
length -64, which leads 30 bytes in front of the buffer, and the response has no decoded
packet. In `longLabelPointerResponse` the answer name is a label of 41 bytes followed by the
pointer `C0 0C`: there the octet `C0` leads to the zero byte at offset 8, `Length` has
wrapped, `LabelFormatToHostname` returns NULL, and `ReceiveDNSPacket` returns
`EFI_OUT_OF_RESOURCES` without a packet. -/
theorem C19_label_then_pointer_undecoded :
    wwwResponse.drop 29 = [3, 119, 119, 119, 192, 12, 0, 1, 0, 1, 0, 0, 14, 16, 0, 4, 93, 184,
      216, 34] ∧
    LabelFormatToHostname (wwwResponse ++ List.replicate 12 0) 12 =
      some (some (exampleHost ++ [0])) ∧
    ReceiveDNSPacket.answerName (wwwResponse ++ List.replicate 12 0) 29 = none ∧
    ReceiveDNSPacket.answerName (wwwResponse ++ List.replicate 12 0) 29 ≠
      some (some (wwwHost ++ [0]), 35) ∧
    ReceiveDNSPacket.decode wwwResponse = none ∧
    LabelFormatToHostname (longLabelPointerResponse ++ List.replicate 12 0) 29 = some none ∧
    ReceiveDNSPacket.answerName (longLabelPointerResponse ++ List.replicate 12 0) 29 =
      some (none, 74) ∧
    ReceiveDNSPacket ⟨.EFI_SUCCESS, .ok longLabelPointerResponse⟩ (some ⟨1⟩) =
      some (.EFI_OUT_OF_RESOURCES, none) := by
  decide

/-- C19 as amended. A name field is decoded in two forms only, a label-format name that ends
with a zero octet and a name that is one two-byte pointer. When one or more labels (1 to 63
bytes each) at the cursor are followed by a pointer octet (two top bits set), no name is
decoded, in the answer loop and in the question loop: `LabelFormatToHostname` takes that
octet as a label length, and either it returns NULL, the loop ends and `ReceiveDNSPacket`
returns `EFI_OUT_OF_RESOURCES`, or there is no defined result. -/
theorem C19_label_then_pointer_no_name (Buffer : List Nat) (it b0 : Nat)
    (ls : List (List Nat)) (rest : List Nat) (hne : ls ≠ []) (hok : LabelsOk ls)
    (hptr : b0 &&& 192 = 192)
    (h : Buffer.drop it = wireLabels ls ++ b0 :: rest) :
    (LabelFormatToHostname Buffer it = none ∨ LabelFormatToHostname Buffer it = some none) ∧
    (ReceiveDNSPacket.answerName Buffer it = none ∨
      ∃ it1, ReceiveDNSPacket.answerName Buffer it = some (none, it1)) ∧
    (ReceiveDNSPacket.questionName Buffer it = none ∨
      ∃ it1, ReceiveDNSPacket.questionName Buffer it = some (none, it1)) ∧
    (∀ n, ReceiveDNSPacket.answers Buffer (n + 1) it = none ∨
      ReceiveDNSPacket.answers Buffer (n + 1) it = some none) ∧
    (∀ n, ReceiveDNSPacket.questions Buffer (n + 1) it = none ∨
      ReceiveDNSPacket.questions Buffer (n + 1) it = some none) := by
  obtain ⟨l, ls1, rfl⟩ : ∃ l ls1, ls = l :: ls1 := by
    cases ls with
    | nil => exact absurd rfl hne
    | cons l ls1 => exact ⟨l, ls1, rfl⟩
  have hb := pointer_octet_ge b0 hptr
  have hd := LabelFormatToHostname_labels_then_high Buffer it b0 rest hb (l :: ls1)
    (fun x hx => ⟨(hok x hx).1, by have := (hok x hx).2; omega⟩) h
  obtain ⟨ha, hq⟩ := names_labels_then_high Buffer it b0 l ls1 rest hok hb h
  refine ⟨hd, ha, hq, ?_, ?_⟩
  · intro n
    rcases ha with ha | ⟨it1, ha⟩
    · left; simp [ReceiveDNSPacket.answers, ha]
    · right; simp [ReceiveDNSPacket.answers, ha]
  · intro n
    rcases hq with hq | ⟨it1, hq⟩
    · left; simp [ReceiveDNSPacket.questions, hq]
    · right; simp [ReceiveDNSPacket.questions, hq]

/-- C19 as amended, at the answer name of `longLabelPointerResponse`, where the name is NULL
and the answer loop ends without an answer. -/
theorem C19_label_then_pointer_no_name_witness :
    ReceiveDNSPacket.answerName (longLabelPointerResponse ++ List.replicate 12 0) 29 =
      some (none, 74) ∧
    (ReceiveDNSPacket.answers (longLabelPointerResponse ++ List.replicate 12 0) 1 29 = none ∨
      ReceiveDNSPacket.answers (longLabelPointerResponse ++ List.replicate 12 0) 1 29 =
        some none) :=
  ⟨by decide,
   (C19_label_then_pointer_no_name (longLabelPointerResponse ++ List.replicate 12 0) 29 192
    [List.replicate 41 97] [12, 0, 1, 0, 1, 0, 0, 14, 16, 0, 4, 93, 184, 216, 34,
      0, 0, 0, 0, 0, 0, 0, 0, 0, 0, 0, 0]
    (by decide) (by decide) (by decide) (by decide)).2.2.2.1 0⟩

/-- C20, refuted as stated. The answer of `nsResponse` has the type 2 and RDLENGTH 6, and
the six bytes `03 n s 1 C0 0C` follow on the wire; the parsed answer has the type 2, the
`RdLength` 6 and a NULL `RData`. -/
theorem C20_ns_rdata_dropped :
    nsResponse.drop 41 = [3, 110, 115, 49, 192, 12] ∧
    (ReceiveDNSPacket.decode nsResponse).map
        (Option.map (fun P => P.Answers.map (fun A => (A.Type_, A.RdLength, A.RData)))) =
      some (some [(2, 6, none)]) := by
  decide

/-- C20 as amended. For every parsed answer whose type is not 1 the parsed answer holds no
resource data: its `RData` is NULL. -/
theorem C20_other_type_no_rdata (d : List Nat) (P : DNS_PACKET) (A : DNS_ANSWER)
    (hd : ReceiveDNSPacket.decode d = some (some P)) (hA : A ∈ P.Answers)
    (hty : A.Type_ ≠ 1) :
    A.RData = none := by
  obtain ⟨raw, qs, it, as, it2, _, _, ha, _, _, _, _, has⟩ := decode_some d P hd
  rw [has] at hA
  exact ((answers_shape _ _ _ _ ha).2 A hA).2 hty

/-- C20 as amended, at the name-server answer of `nsResponse`. -/
theorem C20_other_type_no_rdata_witness :
    ReceiveDNSPacket.decode nsResponse = some (some nsPacket) ∧
    (⟨exampleHost ++ [0], 2, 1, 0, 6, none⟩ : DNS_ANSWER) ∈ nsPacket.Answers ∧
    (⟨exampleHost ++ [0], 2, 1, 0, 6, none⟩ : DNS_ANSWER).RData = none :=
  ⟨by decide, by decide,
   C20_other_type_no_rdata nsResponse nsPacket ⟨exampleHost ++ [0], 2, 1, 0, 6, none⟩
     (by decide) (by decide) (by decide)⟩

/-- C21, the code at `cnameResponse` (a CNAME record with 5 bytes of resource data at offset
41, then an address record at offset 46). The cursor is not moved over the resource data, so
the answer loop decodes the second answer at offset 41, from the resource data of the first:
name `b.c`, type 354, class 355, no resource data. Decoding at offset 46 gives the second
record of the wire: type 1, class 1, address `93.184.216.34`. For `twoAddressResponse` the
second answer is read from the address bytes of the first: the octet 93 is taken as a label
length that leads outside the buffer, so the response has no decoded packet. -/
theorem C21_second_answer_from_rdata :
    cnameResponse.drop 41 =
      [1, 98, 1, 99, 0, 1, 98, 1, 99, 0, 0, 1, 0, 1, 0, 0, 14, 16, 0, 4, 93, 184, 216, 34] ∧
    (ReceiveDNSPacket.answers (cnameResponse ++ List.replicate 12 0) 2 29).map
        (Option.map (fun r => r.1)) =
      some (some [⟨exampleHost ++ [0], 5, 1, 0, 5, none⟩,
        ⟨[98, 46, 99, 0], 354, 355, 0, 256, none⟩]) ∧
    (ReceiveDNSPacket.answers (cnameResponse ++ List.replicate 12 0) 1 41).map
        (Option.map (fun r => r.1)) =
      some (some [⟨[98, 46, 99, 0], 354, 355, 0, 256, none⟩]) ∧
    (ReceiveDNSPacket.answers (cnameResponse ++ List.replicate 12 0) 1 46).map
        (Option.map (fun r => r.1)) =
      some (some [⟨[98, 46, 99, 0], 1, 1, 0, 4, some [93, 184, 216, 34]⟩]) ∧
    (ReceiveDNSPacket.decode cnameResponse).map (Option.map (fun P => P.Answers)) =
      some (some [⟨exampleHost ++ [0], 5, 1, 0, 5, none⟩,
        ⟨[98, 46, 99, 0], 354, 355, 0, 256, none⟩]) ∧
    ReceiveDNSPacket.decode twoAddressResponse = none := by
  decide

/-- C22, the code at `sampleResponse`, whose answer has the TTL bytes `00 00 0E 10` (3600):
the parsed `TTL` is 0. `HTONS` is applied to the 32-bit read, which keeps the first two bytes
only: for the TTL bytes `01 02 03 04` of `ttlResponse` the parsed `TTL` is 258 (0x0102), not
16909060. -/
theorem C22_ttl_two_bytes :
    (sampleResponse.drop 35).take 4 = [0, 0, 14, 16] ∧
    (readUINT32 sampleResponse 35).map HTONS = some 0 ∧
    (ReceiveDNSPacket.decode sampleResponse).map
        (Option.map (fun P => P.Answers.map (fun A => A.TTL))) = some (some [0]) ∧
    (ttlResponse.drop 35).take 4 = [1, 2, 3, 4] ∧
    (ReceiveDNSPacket.decode ttlResponse).map
        (Option.map (fun P => P.Answers.map (fun A => A.TTL))) = some (some [258]) ∧
    1 * 2 ^ 24 + 2 * 2 ^ 16 + 3 * 2 ^ 8 + 4 = 16909060 := by
  decide

/-- C23, the code at `twoQuestionResponse`, whose second question name, at offset 29, is the
pointer `C0 0C`. The pointer stands for the offset 12, where `example.com` is, and the name
step of the answer loop decodes that name from these two bytes. The name step of the question
loop computes the offset `((0xC0 << 8) ^ 0xC0) | 0x0C` = 49356, outside the buffer of 47
bytes: it gives no name, and the message has no decoded packet. -/
theorem C23_question_pointer_offset :
    (twoQuestionResponse.drop 29).take 2 = [192, 12] ∧
    pointerOffset 192 12 = 12 ∧
    LabelFormatToHostname (twoQuestionResponse ++ List.replicate 12 0) (pointerOffset 192 12) =
      some (some (exampleHost ++ [0])) ∧
    ReceiveDNSPacket.answerName (twoQuestionResponse ++ List.replicate 12 0) 29 =
      some (some (exampleHost ++ [0]), 31) ∧
    (((192 <<< 8) ^^^ 0xC0) ||| 12) % 65536 = 49356 ∧
    (twoQuestionResponse ++ List.replicate 12 0).length = 47 ∧
    ReceiveDNSPacket.questionName (twoQuestionResponse ++ List.replicate 12 0) 29 = none ∧
    ReceiveDNSPacket.decode twoQuestionResponse = none := by
  decide

set_option maxRecDepth 100000 in
/-- C24, the code at `hugeLabelHost`, a label of 130 bytes with a trailing dot, so with an
empty label after its first label. `HostnameToLabelFormat` writes the length octet 130, the
label, a zero octet at the place of the empty label and the zero octet at the end.
`LabelFormatToHostname` applied to that wire name takes the octet 130 as the length -126 and
reads 124 bytes in front of the pool: it has no defined result and does not return the label
before the empty one. For `example.com.` and for `a..b` it returns `example.com` and `a`. -/
theorem C24_long_label_before_empty :
    splitDots hugeLabelHost = [List.replicate 130 97, []] ∧
    HostnameToLabelFormat (some (hugeLabelHost ++ [0])) 131 =
      some (some (133 :: 130 :: (List.replicate 130 97 ++ [0, 0]))) ∧
    CHAR8toINTN 130 = -126 ∧
    LabelFormatToHostname (133 :: 130 :: (List.replicate 130 97 ++ [0, 0])) 1 = none ∧
    HostnameToLabelFormat (some (trailingDotHost ++ [0])) 12 =
      some (some [14, 7, 101, 120, 97, 109, 112, 108, 101, 3, 99, 111, 109, 0, 0]) ∧
    LabelFormatToHostname [14, 7, 101, 120, 97, 109, 112, 108, 101, 3, 99, 111, 109, 0, 0] 1 =
      some (some (exampleHost ++ [0])) ∧
    HostnameToLabelFormat (some (doubleDotHost ++ [0])) 4 =
      some (some [6, 1, 97, 0, 1, 98, 0]) ∧
    LabelFormatToHostname [6, 1, 97, 0, 1, 98, 0] 1 = some (some [97, 0]) := by
  decide

end DNSClient
